import Mathlib

/-!
# Verification of the GitLab → Forgejo migration engine

Shallow embedding of the reconciliation logic of the migration scripts
(`src/migrate_projects.py`, `src/migrate_organizations.py`,
`src/migrate_users.py`, `src/tools/user_import.py`, `src/migrate.py`)
and proofs of the behavioural claims about them.

Conventions of the embedding:
* Python strings are Lean `String`s; `str.strip()` and `str.lower()` are
  modelled character-wise on the ASCII range actually reached by the code
  (`pyStrip`, `pyLower`).
* The target platform (Forgejo) is modelled as an explicit state of entity
  keys (`MigState`).  Lookups (`user_get`, `org_get`, `repo_get`,
  `GET .../labels`, …) read that state truthfully, and creation calls
  succeed and extend the state — the deterministic "healthy environment"
  semantics under which the specification states its idempotence and
  precedence properties.  Transport-level behaviour of the one retried call
  (`POST /repos/migrate`) is modelled separately and faithfully by
  `attemptsRun`, and the response-text driven issue fallback by
  `issueCreateAttempts`.
* Entity attributes that never influence control flow (label colours,
  milestone due dates, e-mail addresses, passwords, payload bodies) are not
  tracked: every existence gate in the source inspects keys only.
-/

/-- Python `str.strip()` whitespace, restricted to the ASCII whitespace
characters (space, tab, newline, carriage return, vertical tab, form feed). -/
def pyWhitespace (c : Char) : Bool :=
  c = ' ' || c = '\t' || c = '\n' || c = '\r' || c = '\x0b' || c = '\x0c'

/-- Python `str.strip()`: drop leading and trailing whitespace. -/
def pyStrip (s : String) : String :=
  String.mk (((s.data.dropWhile pyWhitespace).reverse.dropWhile pyWhitespace).reverse)

/-- Python `str.lower()` character-wise; the code only applies it to ASCII
strings produced by `name_clean` or to server response texts. -/
def pyLower (s : String) : String :=
  String.mk (s.data.map Char.toLower)

/-- Characters accepted by the regex class `[^a-zA-Z0-9_\.-]` of
`name_clean` (`migrate_projects.py` line 33). -/
def isAllowedChar (c : Char) : Bool :=
  ('a' ≤ c && c ≤ 'z') || ('A' ≤ c && c ≤ 'Z') || ('0' ≤ c && c ≤ '9') ||
    c = '_' || c = '.' || c = '-'

/-- One character of `name_clean`: the composition of
`name.replace(" ", "_")` with `re.sub(r"[^a-zA-Z0-9_\.-]", "-", ·)`,
both of which act character-wise. -/
def cleanChar (c : Char) : Char :=
  if c = ' ' then '_' else if isAllowedChar c then c else '-'

/-- The normalisation part of `name_clean` before the reserved-name rule. -/
def nameCleanCore (s : String) : String :=
  String.mk (s.data.map cleanChar)

/-- `name_clean` (`migrate_projects.py` lines 31–38; the identical copies in
`migrate.py` and `migrate_organizations.py` are the same function):
replace spaces by underscores, every other disallowed character by a hyphen,
and suffix `-user` when the result lower-cases to the reserved name
`plugins`. -/
def name_clean (s : String) : String :=
  if pyLower (nameCleanCore s) = "plugins" then nameCleanCore s ++ "-user"
  else nameCleanCore s

theorem cleanChar_allowed (c : Char) : isAllowedChar (cleanChar c) = true := by
  unfold cleanChar
  by_cases h : c = ' '
  · simp [h]; decide
  · simp only [if_neg h]
    by_cases h2 : isAllowedChar c = true
    · simp [h2]
    · simp [h2]; decide

theorem cleanChar_of_allowed {c : Char} (h : isAllowedChar c = true) :
    cleanChar c = c := by
  unfold cleanChar
  have hs : c ≠ ' ' := by
    intro he; subst he; simp [isAllowedChar] at h
  simp [hs, h]

theorem cleanChar_space : cleanChar ' ' = '_' := by decide

theorem cleanChar_disallowed {c : Char} (hs : c ≠ ' ')
    (h : isAllowedChar c = false) : cleanChar c = '-' := by
  simp [cleanChar, hs, h]

/-- Data of a string append. -/
theorem str_append_data (a b : String) : (a ++ b).data = a.data ++ b.data := rfl

theorem name_clean_allowed (s : String) :
    ∀ c ∈ (name_clean s).data, isAllowedChar c = true := by
  intro c hc
  unfold name_clean at hc
  split at hc
  · rw [str_append_data] at hc
    rcases List.mem_append.mp hc with h1 | h1
    · unfold nameCleanCore at h1
      simp only [String.mk] at h1
      rcases List.mem_map.mp h1 with ⟨a, _, ha⟩
      rw [← ha]; exact cleanChar_allowed a
    · fin_cases h1 <;> decide
  · unfold nameCleanCore at hc
    simp only [String.mk] at hc
    rcases List.mem_map.mp hc with ⟨a, _, ha⟩
    rw [← ha]; exact cleanChar_allowed a

theorem nameCleanCore_data (s : String) :
    (nameCleanCore s).data = s.data.map cleanChar := rfl

theorem map_cleanChar_id {l : List Char} (h : ∀ c ∈ l, isAllowedChar c = true) :
    l.map cleanChar = l := by
  induction l with
  | nil => rfl
  | cons a as ih =>
    simp only [List.map_cons, List.cons.injEq]
    exact ⟨cleanChar_of_allowed (h a (by simp)),
           ih (fun c hc => h c (by simp [hc]))⟩

theorem nameCleanCore_of_clean (s : String) :
    nameCleanCore (name_clean s) = name_clean s := by
  unfold nameCleanCore
  rw [map_cleanChar_id (name_clean_allowed s)]

theorem name_clean_eq_of_ne {s : String}
    (h : pyLower (nameCleanCore s) ≠ "plugins") :
    name_clean s = nameCleanCore s := by
  unfold name_clean; rw [if_neg h]

theorem name_clean_eq_of_eq {s : String}
    (h : pyLower (nameCleanCore s) = "plugins") :
    name_clean s = nameCleanCore s ++ "-user" := by
  unfold name_clean; rw [if_pos h]

theorem name_clean_not_plugins (s : String) :
    pyLower (name_clean s) ≠ "plugins" := by
  unfold name_clean
  split
  case isTrue h =>
    have hd : (nameCleanCore s).data.map Char.toLower = "plugins".data :=
      congrArg String.data h
    unfold pyLower
    rw [str_append_data, List.map_append, hd]
    decide
  case isFalse h => exact h

/-- **C2.** Name Normalizer: the output of `name_clean` contains only
characters of `[A-Za-z0-9_.-]`; before the reserved-name rule it is the
character-wise image of the input where every space becomes an underscore
and every other disallowed character becomes a hyphen; when that normalised
result case-insensitively equals the reserved name `plugins`, the fixed
suffix `-user` is appended, otherwise the result is returned unchanged.
As a Lean function the embedding is pure and deterministic by construction
(the Python source has no side effects and reads no external state). -/
theorem name_clean_spec (s : String) :
    (∀ c ∈ (name_clean s).data, isAllowedChar c = true) ∧
    (nameCleanCore s).data = s.data.map cleanChar ∧
    cleanChar ' ' = '_' ∧
    (∀ c : Char, c ≠ ' ' → isAllowedChar c = false → cleanChar c = '-') ∧
    (pyLower (nameCleanCore s) = "plugins" →
      name_clean s = nameCleanCore s ++ "-user") ∧
    (pyLower (nameCleanCore s) ≠ "plugins" → name_clean s = nameCleanCore s) :=
  ⟨name_clean_allowed s, rfl, cleanChar_space,
   fun _ h1 h2 => cleanChar_disallowed h1 h2,
   fun h => name_clean_eq_of_eq h, fun h => name_clean_eq_of_ne h⟩

/-- Witness for C2: the theorem evaluated at the spec's own example
`"My Repo!!"` (plus a reserved-name instance), all hypotheses discharged by
computation. -/
theorem name_clean_spec_witness :
    name_clean "My Repo!!" = "My_Repo--" ∧ cleanChar '!' = '-' ∧
    name_clean "Plugins" = "Plugins-user" :=
  ⟨by decide, (name_clean_spec "My Repo!!").2.2.2.1 '!' (by decide) (by decide),
   (name_clean_spec "Plugins").2.2.2.2.1 (by decide)⟩

/-- **C8.** `name_clean` is idempotent: normalising an already-normalised
identifier (including the reserved-name suffixed form) changes nothing. -/
theorem name_clean_idempotent (s : String) :
    name_clean (name_clean s) = name_clean s := by
  have h2 : pyLower (nameCleanCore (name_clean s)) ≠ "plugins" := by
    rw [nameCleanCore_of_clean]; exact name_clean_not_plugins s
  rw [name_clean_eq_of_ne h2, nameCleanCore_of_clean]

/-! ## Target state

The Forgejo side, as far as the engine's existence gates inspect it: sets
(ordered lists) of entity keys.  `teams` records, per organisation, the
teams visible to `org_list_teams` (creating an organisation in Forgejo
always installs a default `Owners` team, which the member importer
addresses as "the first team"). -/

/-- Key of a target repository: `(owner, name)`. -/
structure RepoKey where
  owner : String
  name : String
deriving DecidableEq

/-- Key of a target label: `(owner, repo, name)`. -/
structure LabelKey where
  owner : String
  repo : String
  name : String
deriving DecidableEq

/-- Key of a target milestone: `(owner, repo, title)`. -/
structure MilestoneKey where
  owner : String
  repo : String
  title : String
deriving DecidableEq

/-- Key of a target issue: `(owner, repo, title)`. -/
structure IssueKey where
  owner : String
  repo : String
  title : String
deriving DecidableEq

/-- A team of an organisation, as listed by `org_list_teams`. -/
structure TeamRec where
  id : Nat
  org : String
deriving DecidableEq

/-- Membership of a user in a team (`GET /teams/{id}/members`). -/
structure MemberRec where
  teamId : Nat
  username : String
deriving DecidableEq

/-- A repository collaborator together with the granted permission
(the existence gate `GET /repos/o/r/collaborators/u` tests the first three
fields only; the permission is what the `PUT` stored at creation). -/
structure Collab where
  owner : String
  repo : String
  username : String
  permission : String
deriving DecidableEq

/-- The target platform's stored entities (its "idempotency ledger"). -/
structure MigState where
  users : List String
  orgs : List String
  teams : List TeamRec
  teamMembers : List MemberRec
  repos : List RepoKey
  labels : List LabelKey
  milestones : List MilestoneKey
  issues : List IssueKey
  collaborators : List Collab
  nextTeamId : Nat
deriving DecidableEq

/-- The empty target. -/
def MigState.empty : MigState := ⟨[], [], [], [], [], [], [], [], [], 0⟩

/-- Effects of a piece of the run: number of target API requests issued,
number of create operations performed, number of error records appended to
the Error Aggregator. -/
structure Eff where
  calls : Nat
  creates : Nat
  errors : Nat
deriving DecidableEq

def Eff.zero : Eff := ⟨0, 0, 0⟩

def Eff.plus (a b : Eff) : Eff :=
  ⟨a.calls + b.calls, a.creates + b.creates, a.errors + b.errors⟩

theorem Eff.plus_creates (a b : Eff) :
    (a.plus b).creates = a.creates + b.creates := rfl

theorem Eff.zero_plus (b : Eff) : Eff.zero.plus b = b := by
  cases b; simp [Eff.plus, Eff.zero]

/-! ## Primitive state updates (all create calls succeed and append) -/

def addUser (st : MigState) (u : String) : MigState :=
  { st with users := st.users ++ [u] }

/-- `org_create` — Forgejo installs the default `Owners` team with the new
organisation, which `org_list_teams` then reports. -/
def addOrg (st : MigState) (o : String) : MigState :=
  { st with orgs := st.orgs ++ [o],
            teams := st.teams ++ [⟨st.nextTeamId, o⟩],
            nextTeamId := st.nextTeamId + 1 }

def addRepo (st : MigState) (k : RepoKey) : MigState :=
  { st with repos := st.repos ++ [k] }

def addLabel (st : MigState) (k : LabelKey) : MigState :=
  { st with labels := st.labels ++ [k] }

def addMilestone (st : MigState) (k : MilestoneKey) : MigState :=
  { st with milestones := st.milestones ++ [k] }

def addIssue (st : MigState) (k : IssueKey) : MigState :=
  { st with issues := st.issues ++ [k] }

def addCollab (st : MigState) (c : Collab) : MigState :=
  { st with collaborators := st.collaborators ++ [c] }

def addMember (st : MigState) (m : MemberRec) : MigState :=
  { st with teamMembers := st.teamMembers ++ [m] }

/-- `collaborator_exists` (`migrate_projects.py` 89–99): the gate tests
owner, repo and username — never the stored permission. -/
def collaboratorExists (st : MigState) (o r u : String) : Bool :=
  st.collaborators.any fun c => c.owner = o ∧ c.repo = r ∧ c.username = u

/-- `label_exists` (113–127): fetch the repository's labels, search by name. -/
def labelExists (st : MigState) (o r n : String) : Bool :=
  st.labels.contains ⟨o, r, n⟩

/-- `milestone_exists` (130–147): search the milestone listing by title. -/
def milestoneExists (st : MigState) (o r t : String) : Bool :=
  st.milestones.contains ⟨o, r, t⟩

/-- `issue_exists` (150–162): search the issue listing (state `all`) by
title. -/
def issueExists (st : MigState) (o r t : String) : Bool :=
  st.issues.contains ⟨o, r, t⟩

/-- `repo_exists` (102–110). -/
def repoExists (st : MigState) (o r : String) : Bool :=
  st.repos.contains ⟨o, r⟩

/-- `org_list_teams` restricted to one organisation (in listing order). -/
def teamsFor (st : MigState) (o : String) : List TeamRec :=
  st.teams.filter fun t => t.org = o

/-! ## Identity Provisioner and Owner Resolver -/

/-- `ensure_user_exists` (`tools/user_import.py` 90–143).  Returns the pair
(user, temporary password or `none`).  `pw` stands in for the randomly
generated temporary password (the password is never stored in the target
state and influences no control flow).  The effect triple counts the target
API requests actually issued: a hit costs one lookup; a miss costs the
lookup, the `admin_create_user` call and the post-create re-fetch. -/
def ensure_user_exists (st : MigState) (username : String) (pw : String) :
    (Option String × Option String) × MigState × Eff :=
  let u := pyStrip username
  if u = "" then ((none, none), st, Eff.zero)
  else if u ∈ st.users then ((some u, none), st, ⟨1, 0, 0⟩)
  else ((some u, some pw), addUser st u, ⟨3, 1, 0⟩)

/-- `ensure_importer_user` (`tools/user_import.py` 146–154). -/
def ensure_importer_user (st : MigState) : MigState × Eff :=
  ((ensure_user_exists st "forgejo-importer" "").2.1,
   (ensure_user_exists st "forgejo-importer" "").2.2)

/-- `_ensure_user_exists_by_username` (`migrate_organizations.py` 64–90):
the group-membership variant; note it does **not** strip its argument.
Returns whether a user is (now) present. -/
def ensure_user_by_username_org (st : MigState) (username : String) :
    Bool × MigState × Eff :=
  if username = "" then (false, st, Eff.zero)
  else if username ∈ st.users then (true, st, ⟨1, 0, 0⟩)
  else (true, addUser st username, ⟨2, 1, 0⟩)

/-- A resolved target owner: a user or an organisation, with the canonical
name that `_forgejo_owner_name` extracts from the fetched object. -/
inductive OwnerRef where
  | user (name : String)
  | org (name : String)
deriving DecidableEq

def OwnerRef.name : OwnerRef → String
  | .user n => n
  | .org n => n

/-- Source-side namespace data of a project, as `_ensure_owner_exists`
reads it from `project.namespace` (raw dictionary values). -/
structure SrcNamespace where
  path : String
  name : String
  kind : String
deriving DecidableEq

/-- `ns_path = ns.get("path") or ns.get("name") or ""`. -/
def nsPathOf (ns : SrcNamespace) : String :=
  if ns.path = "" then ns.name else ns.path

/-- `ns_name = ns.get("name") or ns_path`. -/
def nsNameOf (ns : SrcNamespace) : String :=
  if ns.name = "" then nsPathOf ns else ns.name

/-- `ns_kind = (ns.get("kind") or "").lower()`. -/
def nsKindOf (ns : SrcNamespace) : String := pyLower ns.kind

/-- `_ensure_owner_exists` (`migrate_projects.py` 165–238).  The two
flags model whether the target accepts the respective creation call
(`org_create` / `admin_create_user`); the deterministic success run
instantiates both with `true`.  Lookup order is exactly the source's:
`user_get(ns_path)` on the **raw** path, then `org_get(name_clean(ns_path))`
on the normalised name, then creation according to the namespace kind.
After a successful creation the code re-fetches the canonical record; with
truthful lookups that re-fetch always succeeds. -/
def ensure_owner_exists (okOrg okUser : Bool) (st : MigState)
    (ns : SrcNamespace) : Option OwnerRef × MigState × Eff :=
  let ns_path := nsPathOf ns
  if ns_path = "" then (none, st, Eff.zero)
  else if ns_path ∈ st.users then (some (.user ns_path), st, ⟨1, 0, 0⟩)
  else if name_clean ns_path ∈ st.orgs then
    (some (.org (name_clean ns_path)), st, ⟨2, 0, 0⟩)
  else if nsKindOf ns = "group" then
    if okOrg then
      (some (.org (name_clean ns_path)), addOrg st (name_clean ns_path),
       ⟨4, 1, 0⟩)
    else (none, st, ⟨3, 0, 1⟩)
  else
    if okUser then
      (some (.user ns_path), addUser st ns_path, ⟨4, 1, 0⟩)
    else (none, st, ⟨3, 0, 1⟩)

/-- `get_user_or_group` (`migrate_projects.py` 282–296): wraps the resolver
and logs one error when it returned nothing. -/
def get_user_or_group (okOrg okUser : Bool) (st : MigState)
    (ns : SrcNamespace) : Option OwnerRef × MigState × Eff :=
  let r := ensure_owner_exists okOrg okUser st ns
  match r.1 with
  | none => (none, r.2.1, r.2.2.plus ⟨0, 0, 1⟩)
  | some ow => (some ow, r.2.1, r.2.2)

/-- The access-level → permission mapping of
`_import_project_repo_collaborators` (`migrate_projects.py` 697–708),
together with whether the unsupported-level warning fires. -/
def collabPermission (lvl : Int) : String × Bool :=
  if lvl = 10 ∨ lvl = 20 then ("read", false)
  else if lvl = 30 then ("write", false)
  else if lvl = 40 ∨ lvl = 50 then ("admin", false)
  else ("read", true)

/-- `_ensure_collaborator_with_permission` (`migrate_projects.py` 241–279):
provision the user, then grant the permission unless the collaborator
already exists. -/
def ensure_collaborator_with_permission (st : MigState)
    (owner repo username permission : String) : MigState × Eff :=
  if username = "" then (st, Eff.zero)
  else
    let r1 := ensure_user_exists st username ""
    if collaboratorExists r1.2.1 owner repo username then
      (r1.2.1, r1.2.2.plus ⟨1, 0, 0⟩)
    else
      (addCollab r1.2.1 ⟨owner, repo, username, permission⟩,
       r1.2.2.plus ⟨2, 1, 0⟩)

/-! ## Source dataset -/

/-- A project member (`gitlab.v4.objects.ProjectMember`): username and
GitLab access level. -/
structure SrcMember where
  username : String
  accessLevel : Int
deriving DecidableEq

/-- A source issue; only the fields that drive control flow are kept
(description, state, due date and label/milestone references feed the
payload, whose attributes the target state does not track). -/
structure SrcIssue where
  title : String
  author : Option String
  assignee : Option String
  assignees : List String
deriving DecidableEq

/-- A source project: namespace, display name and its sub-entity lists
(labels by name, milestones by title). -/
structure SrcProject where
  ns : SrcNamespace
  name : String
  members : List SrcMember
  labels : List String
  milestones : List String
  issues : List SrcIssue
deriving DecidableEq

/-- A source group (`migrate_organizations.py`): display name and member
usernames. -/
structure SrcGroup where
  name : String
  members : List String
deriving DecidableEq

/-- A source user of the standalone users pass. -/
structure SrcUser where
  username : String
deriving DecidableEq

/-- The whole source dataset of one run (`--all`). -/
structure Source where
  users : List SrcUser
  groups : List SrcGroup
  projects : List SrcProject
deriving DecidableEq

/-- Sequencing of state-and-effect computations. -/
def withEff (r : MigState × Eff) (f : MigState → MigState × Eff) :
    MigState × Eff :=
  ((f r.1).1, r.2.plus (f r.1).2)

/-- Sequential processing of a list of items, accumulating effects — the
shape of every `for` loop of the importers. -/
def foldRun (f : MigState → α → MigState × Eff) (st : MigState) :
    List α → MigState × Eff
  | [] => (st, Eff.zero)
  | a :: as =>
    ((foldRun f (f st a).1 as).1, ((f st a).2).plus (foldRun f (f st a).1 as).2)

/-! ## Sub-entity importers (`migrate_projects.py`) -/

/-- One label of `_import_project_labels` (299–319). -/
def importLabelStep (owner repo : String) (st : MigState) (lname : String) :
    MigState × Eff :=
  if labelExists st owner repo lname then (st, ⟨1, 0, 0⟩)
  else (addLabel st ⟨owner, repo, lname⟩, ⟨2, 1, 0⟩)

/-- One milestone of `_import_project_milestones` (322–369); the post-create
`PATCH` updates the milestone's state attribute in place (an update call,
not a creation — the key set is unchanged by it). -/
def importMilestoneStep (owner repo : String) (st : MigState) (t : String) :
    MigState × Eff :=
  if milestoneExists st owner repo t then (st, ⟨1, 0, 0⟩)
  else (addMilestone st ⟨owner, repo, t⟩, ⟨3, 1, 0⟩)

/-- Author resolution of `_import_project_issues` (389–400): the stripped
author username, with the well-known importer identity as fallback. -/
def issueAuthor (i : SrcIssue) : String :=
  match i.author with
  | none => "forgejo-importer"
  | some a => if pyStrip a = "" then "forgejo-importer" else pyStrip a

/-- Assignee extraction (432–436): stripped, empty → `None`. -/
def issueAssignee (i : SrcIssue) : Option String :=
  match i.assignee with
  | none => none
  | some a => if pyStrip a = "" then none else some (pyStrip a)

/-- Assignees list extraction (438–450): keep the non-empty strips. -/
def issueAssignees (i : SrcIssue) : List String :=
  i.assignees.filterMap fun a => if pyStrip a = "" then none else some (pyStrip a)

/-- Provision one issue participant: `ensure_user_exists` followed by
`_ensure_collaborator_with_permission` at `read` (409–426, 452–501). -/
def provisionParticipant (owner repo : String) (st : MigState) (u : String) :
    MigState × Eff :=
  withEff ((ensure_user_exists st u "").2)
    (fun s => ensure_collaborator_with_permission s owner repo u "read")

/-- One issue of `_import_project_issues` (385–574).  In the deterministic
success semantics the create call is accepted, so the assignee-validation
fallback branch (549–569, modelled faithfully by `issueCreateAttempts`
below) is not taken. -/
def importIssueStep (owner repo : String) (st : MigState) (i : SrcIssue) :
    MigState × Eff :=
  if issueExists st owner repo i.title then (st, ⟨1, 0, 0⟩)
  else
    let r1 := provisionParticipant owner repo st (issueAuthor i)
    let r2 :=
      match issueAssignee i with
      | none => r1
      | some a => withEff r1 (fun s => provisionParticipant owner repo s a)
    let r3 := withEff r2 (fun s => foldRun (provisionParticipant owner repo) s
      (issueAssignees i))
    (addIssue r3.1 ⟨owner, repo, i.title⟩, r3.2.plus ⟨2, 1, 0⟩)

/-- `_import_project_issues` (372–574): fetch the milestone and label
listings once (two requests, used only for payload id resolution), ensure
the fallback importer identity, then process each issue. -/
def importProjectIssues (owner repo : String) (st : MigState)
    (issues : List SrcIssue) : MigState × Eff :=
  withEff (withEff (ensure_importer_user st) (fun s => (s, ⟨2, 0, 0⟩)))
    (fun s => foldRun (importIssueStep owner repo) s issues)

/-- One collaborator of `_import_project_repo_collaborators` (668–721). -/
def importCollaboratorStep (owner repo : String) (st : MigState)
    (c : SrcMember) : MigState × Eff :=
  let u := pyStrip c.username
  if u = "" then (st, Eff.zero)
  else
    let r1 := (ensure_user_exists st u "").2
    if collaboratorExists r1.1 owner repo u then (r1.1, r1.2.plus ⟨1, 0, 0⟩)
    else
      (addCollab r1.1 ⟨owner, repo, u, (collabPermission c.accessLevel).1⟩,
       r1.2.plus ⟨2, 1, 0⟩)

/-- `_import_project_repo` (577–665) under the success semantics: the gate,
then one accepted migrate request.  The transport-level retry supervision
of that request is modelled separately by `attemptsRun`. -/
def importProjectRepo (owner : String) (st : MigState) (p : SrcProject) :
    MigState × Eff :=
  if repoExists st owner (name_clean p.name) then (st, ⟨1, 0, 0⟩)
  else (addRepo st ⟨owner, name_clean p.name⟩, ⟨2, 1, 0⟩)

/-- The sub-entity part of `_import_one_project_full` (874–881) under a
resolved owner name: repository, collaborators, labels, milestones,
issues, in the source's order. -/
def importProjectBody (o : String) (st : MigState) (p : SrcProject) :
    MigState × Eff :=
  withEff (withEff (withEff
    (withEff (importProjectRepo o st p)
      (fun s => foldRun (importCollaboratorStep o (name_clean p.name)) s
        p.members))
    (fun s => foldRun (importLabelStep o (name_clean p.name)) s p.labels))
    (fun s => foldRun (importMilestoneStep o (name_clean p.name)) s
      p.milestones))
    (fun s => importProjectIssues o (name_clean p.name) s p.issues)

/-- `_import_one_project_full` (839–881): resolve the owner (two error
records and a skip when that fails), then the sub-entity body. -/
def importOneProjectFull (st : MigState) (p : SrcProject) : MigState × Eff :=
  let ro := get_user_or_group true true st p.ns
  match ro.1 with
  | none => (ro.2.1, ro.2.2.plus ⟨0, 0, 1⟩)
  | some ow =>
    withEff (ro.2.1, ro.2.2) (fun s => importProjectBody ow.name s p)

/-! ## Groups pass (`migrate_organizations.py`) and users pass
(`migrate_users.py` / `tools/user_import.py`) -/

/-- One member of `_import_group_members` (92–134): skip falsy usernames
(no strip here), provision the user, then add to the team if absent. -/
def importGroupMemberStep (teamId : Nat) (st : MigState) (m : String) :
    MigState × Eff :=
  if m = "" then (st, Eff.zero)
  else
    let r1 := ensure_user_by_username_org st m
    match r1.1 with
    | false => (r1.2.1, r1.2.2)
    | true =>
      if (⟨teamId, m⟩ : MemberRec) ∈ r1.2.1.teamMembers then
        (r1.2.1, r1.2.2.plus ⟨1, 0, 0⟩)
      else
        (addMember r1.2.1 ⟨teamId, m⟩, r1.2.2.plus ⟨2, 1, 0⟩)

/-- One group of `_import_groups` (137–175) followed by
`_import_group_members` (92–134): create the organisation if absent, then
fetch its teams and import the members into the first team (error and skip
when the organisation reports no teams). -/
def importGroupOne (st : MigState) (g : SrcGroup) : MigState × Eff :=
  let clean := name_clean g.name
  let r1 : MigState × Eff :=
    if clean ∈ st.orgs then (st, ⟨1, 0, 0⟩)
    else (addOrg st clean, ⟨2, 1, 0⟩)
  match teamsFor r1.1 clean with
  | [] => (r1.1, r1.2.plus ⟨1, 0, 1⟩)
  | t :: _ =>
    withEff (r1.1, r1.2.plus ⟨2, 0, 0⟩)
      (fun s => foldRun (importGroupMemberStep t.id) s g.members)

/-- `import_one_gitlab_user` (`tools/user_import.py` 187–232) restricted to
the entities of the run state: skip blank usernames, otherwise provision.
(The user's public-key import touches only key entities, which no claim
mentions and which no other importer reads; it is therefore not tracked.) -/
def importUserOne (st : MigState) (u : SrcUser) : MigState × Eff :=
  if pyStrip u.username = "" then (st, Eff.zero)
  else (ensure_user_exists st u.username "").2

/-- `_import_users` (`migrate_users.py` 7–16): each batch first ensures the
importer identity, then imports the user; `import_users` calls it once per
source user. -/
def importUsersPass (st : MigState) (users : List SrcUser) : MigState × Eff :=
  foldRun (fun s u => withEff (ensure_importer_user s)
    (fun s2 => importUserOne s2 u)) st users

/-- The full migration of `migrate.py main` with `--all`: users pass,
groups pass, projects pass, in that order. -/
def run_migration (src : Source) (st : MigState) : MigState × Eff :=
  withEff (withEff (importUsersPass st src.users)
    (fun s => foldRun importGroupOne s src.groups))
    (fun s => foldRun importOneProjectFull s src.projects)

/-! ## Repository-migration retry supervision (`migrate_projects.py`
577–665, transport level) -/

/-- Transport-level outcome of one `POST /repos/migrate` attempt.  A
read-timeout carries the result of the subsequent `repo_get` reconciliation
check (`true` when the repository turned out to exist; an exception inside
that check is caught and behaves like `false`). -/
inductive MigrateOutcome where
  | ok
  | httpError
  | readTimeout (repoNowExists : Bool)
  | transportError
deriving DecidableEq

/-- Terminal classification of `_import_project_repo`'s attempt loop. -/
inductive RepoMigResult where
  | success
  | successAfterTimeout
  | httpFailed
  | transportFailed
  | timedOut
deriving DecidableEq

def RepoMigResult.isSuccess : RepoMigResult → Bool
  | .success => true
  | .successAfterTimeout => true
  | _ => false

/-- One error record is appended exactly on the three failure outcomes. -/
def RepoMigResult.errorRecords : RepoMigResult → Nat
  | .success => 0
  | .successAfterTimeout => 0
  | _ => 1

/-- The attempt loop `for attempt in range(1, attempts + 1)` of
`_import_project_repo`, driven by the outcome of each issued request.
Returns (number of migrate requests issued, back-off sleeps performed in
seconds, terminal classification).  The list argument is the remaining
attempt numbers; `attempt < attempts` is exactly "the tail is non-empty". -/
def attemptsRun (outcome : Nat → MigrateOutcome) :
    List Nat → Nat × List Nat × RepoMigResult
  | [] => (0, [], .timedOut)
  | a :: rest =>
    if outcome a = .ok then (1, [], .success)
    else if outcome a = .httpError then (1, [], .httpFailed)
    else if outcome a = .transportError then (1, [], .transportFailed)
    else if outcome a = .readTimeout true then (1, [], .successAfterTimeout)
    else if rest.isEmpty then (1, [], .timedOut)
    else
      let r := attemptsRun outcome rest
      (1 + r.1, 5 * a :: r.2.1, r.2.2)

/-- `_import_project_repo`'s supervision: exactly 3 attempts. -/
def importRepoRetry (outcome : Nat → MigrateOutcome) :
    Nat × List Nat × RepoMigResult :=
  attemptsRun outcome [1, 2, 3]

/-! ## Issue-creation fallback (`migrate_projects.py` 528–574) -/

/-- Decidable substring test on character lists. -/
def isSubChunkAt : List Char → List Char → Bool
  | [], _ => true
  | _ :: _, [] => false
  | a :: as, b :: bs => a = b && isSubChunkAt as bs

/-- `needle in hay` for strings, as character lists. -/
def hasSubChunk (needle : List Char) : List Char → Bool
  | [] => isSubChunkAt needle []
  | hay@(_ :: rest) => isSubChunkAt needle hay || hasSubChunk needle rest

/-- The textual assignee-validation test of line 550:
`"Assignee does not exist" in txt or "assignee" in txt.lower()`. -/
def assigneeRelated (txt : String) : Bool :=
  hasSubChunk "Assignee does not exist".data txt.data ||
    hasSubChunk "assignee".data (pyLower txt).data

/-- The issue payload fields the fallback manipulates (the remaining payload
fields are copied verbatim into both requests by `dict(payload)`). -/
structure IssuePayload where
  assignee : Option String
  assignees : List String
  title : String
deriving DecidableEq

/-- A target HTTP response: status-ok flag and body text. -/
structure HttpResp where
  ok : Bool
  text : String
deriving DecidableEq

/-- Result of the issue-creation tail of `_import_project_issues`
(lines 539–574): payloads posted in order, whether the issue was imported,
whether its assignees were dropped by the fallback, and the number of error
records appended. -/
structure IssueCreateRes where
  posted : List IssuePayload
  imported : Bool
  assigneesDropped : Bool
  errorRecords : Nat
deriving DecidableEq

/-- The initial create call, the assignee-validation fallback (one retry
with `assignee = None`, `assignees = []`) and the error accounting,
driven by the response to the first request (`r1`) and — only when the
fallback fires — the response to the second (`r2`). -/
def issueCreateAttempts (p : IssuePayload) (r1 r2 : HttpResp) :
    IssueCreateRes :=
  if r1.ok then ⟨[p], true, false, 0⟩
  else if assigneeRelated r1.text then
    if r2.ok then ⟨[p, { p with assignee := none, assignees := [] }],
                   true, true, 0⟩
    else ⟨[p, { p with assignee := none, assignees := [] }], false, false, 1⟩
  else ⟨[p], false, false, 1⟩

/-! ## `_forgejo_owner_name` (`migrate_projects.py` 41–46) -/

/-- A Python dictionary value as far as `isinstance(v, str)` can see it:
a string, some non-string value, or absent. -/
inductive PyVal where
  | str (s : String)
  | nonstr
deriving DecidableEq

/-- The owner object fields the function inspects, in its fixed order. -/
structure OwnerObj where
  username : Option PyVal
  login : Option PyVal
  name : Option PyVal
deriving DecidableEq

/-- `isinstance(v, str) and v.strip()`: the stripped value when the field
holds a string that is non-empty after stripping. -/
def strFieldValue : Option PyVal → Option String
  | some (.str s) => if pyStrip s = "" then none else some (pyStrip s)
  | _ => none

/-- `_forgejo_owner_name`: first qualifying field of
`("username", "login", "name")`, else `ValueError`. -/
def forgejoOwnerName (o : OwnerObj) : Except Unit String :=
  match strFieldValue o.username with
  | some s => .ok s
  | none =>
    match strFieldValue o.login with
    | some s => .ok s
    | none =>
      match strFieldValue o.name with
      | some s => .ok s
      | none => .error ()

/-! ## Error Aggregator terminal reporting (`migrate.py` 113–121)

Modelled from the spec: the `fg_print` module (the Error Aggregator
implementation holding `GLOBAL_ERROR_COUNT` / `GLOBAL_ERROR_LIST`) is not
part of the sources; per §4.7 of the specification its `error` path appends
one record and increments the counter, never terminating the process, and
`warning` does not touch the aggregator. -/

/-- The aggregator: process-wide counter and ordered list. -/
structure ErrAgg where
  count : Nat
  records : List String
deriving DecidableEq

/-- Modelled from the spec: `fg_print.error` — append one record, increment
the counter, never abort. -/
def errAggError (a : ErrAgg) (desc : String) : ErrAgg :=
  ⟨a.count + 1, a.records ++ [desc]⟩

/-- What the tail of `main` (lines 113–121) observably does: the success
banner iff the counter is zero, otherwise one more error record plus the
print of the full ordered list; the process exit code, which `main` never
sets to anything non-zero (the function simply returns; the only
`os.sys.exit()` calls in the sources exit with status 0). -/
structure FinalReport where
  success : Bool
  printed : List String
  exitCode : Nat
deriving DecidableEq

def mainFinalReport (a : ErrAgg) : FinalReport :=
  if a.count = 0 then ⟨true, [], 0⟩
  else
    let a2 := errAggError a
      ("Migration finished with " ++ toString a.count ++ " errors!")
    ⟨false, a2.records, 0⟩

/-! ## Component-level theorems -/

/-- **C9.** A username that is empty or consists only of whitespace makes
`ensure_user_exists` return `(None, None)` immediately: no target lookup or
create call is issued (zero requests), no error is recorded, and the target
state is untouched. -/
theorem ensure_user_exists_blank (st : MigState) (username pw : String)
    (h : pyStrip username = "") :
    ensure_user_exists st username pw = ((none, none), st, Eff.zero) := by
  unfold ensure_user_exists
  simp [h]

/-- Witness for C9 at the concrete whitespace-only username `"  "`. -/
theorem ensure_user_exists_blank_witness :
    pyStrip "  " = "" ∧
      ensure_user_exists MigState.empty "  " "Tmp1!X" =
        ((none, none), MigState.empty, Eff.zero) :=
  ⟨by decide, ensure_user_exists_blank MigState.empty "  " "Tmp1!X" (by decide)⟩

/-- **C10.** `_forgejo_owner_name` returns the first of the fields
`username`, `login`, `name` (in that fixed order) whose value is a string
that is non-empty after stripping, with the stripped value returned, and
raises `ValueError` exactly when no field qualifies.  The final conjunct
pins down what "qualifies" means: the field holds a string whose strip is
non-empty, and the stripped value is what is returned. -/
theorem forgejo_owner_name_spec (o : OwnerObj) :
    (∀ s, strFieldValue o.username = some s → forgejoOwnerName o = .ok s) ∧
    (strFieldValue o.username = none →
      ∀ s, strFieldValue o.login = some s → forgejoOwnerName o = .ok s) ∧
    (strFieldValue o.username = none → strFieldValue o.login = none →
      ∀ s, strFieldValue o.name = some s → forgejoOwnerName o = .ok s) ∧
    (forgejoOwnerName o = .error () ↔
      strFieldValue o.username = none ∧ strFieldValue o.login = none ∧
        strFieldValue o.name = none) ∧
    (∀ (v : Option PyVal) (s : String), strFieldValue v = some s ↔
      ∃ s0, v = some (.str s0) ∧ pyStrip s0 ≠ "" ∧ s = pyStrip s0) := by
  refine ⟨?_, ?_, ?_, ?_, ?_⟩
  · intro s hs; unfold forgejoOwnerName; rw [hs]
  · intro h1 s hs; unfold forgejoOwnerName; rw [h1, hs]
  · intro h1 h2 s hs; unfold forgejoOwnerName; rw [h1, h2, hs]
  · unfold forgejoOwnerName
    cases h1 : strFieldValue o.username with
    | some s => simp
    | none =>
      cases h2 : strFieldValue o.login with
      | some s => simp
      | none =>
        cases h3 : strFieldValue o.name with
        | some s => simp
        | none => simp
  · intro v s
    constructor
    · intro hv
      cases v with
      | none => simp [strFieldValue] at hv
      | some pv =>
        cases pv with
        | nonstr => simp [strFieldValue] at hv
        | str s0 =>
          unfold strFieldValue at hv
          by_cases h : pyStrip s0 = ""
          · simp [h] at hv
          · simp [h] at hv
            exact ⟨s0, rfl, h, hv.symm⟩
    · rintro ⟨s0, rfl, h, rfl⟩
      simp [strFieldValue, h]

/-- Witness for C10: a concrete owner object whose `username` field is a
padded string, plus an all-absent object raising the error. -/
theorem forgejo_owner_name_spec_witness :
    forgejoOwnerName ⟨some (.str " alice "), some .nonstr, none⟩ = .ok "alice" ∧
      forgejoOwnerName ⟨some .nonstr, some (.str "  "), none⟩ = .error () :=
  ⟨(forgejo_owner_name_spec ⟨some (.str " alice "), some .nonstr, none⟩).1
      "alice" (by decide),
   ((forgejo_owner_name_spec ⟨some .nonstr, some (.str "  "), none⟩).2.2.2.1).mpr
      (by decide)⟩

/-- `ensure_user_exists` touches only the `users` component of the state. -/
theorem ensure_user_exists_state (st : MigState) (u pw : String) :
    ((ensure_user_exists st u pw).2.1.orgs = st.orgs ∧
     (ensure_user_exists st u pw).2.1.teams = st.teams ∧
     (ensure_user_exists st u pw).2.1.teamMembers = st.teamMembers ∧
     (ensure_user_exists st u pw).2.1.repos = st.repos ∧
     (ensure_user_exists st u pw).2.1.labels = st.labels ∧
     (ensure_user_exists st u pw).2.1.milestones = st.milestones ∧
     (ensure_user_exists st u pw).2.1.issues = st.issues ∧
     (ensure_user_exists st u pw).2.1.collaborators = st.collaborators ∧
     (ensure_user_exists st u pw).2.1.nextTeamId = st.nextTeamId) := by
  unfold ensure_user_exists
  by_cases h : pyStrip u = ""
  · simp [h]
  · by_cases h2 : pyStrip u ∈ st.users
    · simp [h, h2]
    · simp [h, h2, addUser]

/-- **C6.** Collaborator permission mapping: source access levels 10 and 20
map to `read`, 30 to `write`, 40 and 50 to `admin`, every other level
defaults to `read` with the unsupported-level warning fired; and a re-run
never changes the permission of an already-existing collaborator, because
the grant is skipped when the collaborator-existence gate is positive — the
collaborator list of the state is returned unchanged. -/
theorem collaborator_mapping_spec :
    (∀ lvl : Int, ((lvl = 10 ∨ lvl = 20) → collabPermission lvl = ("read", false)) ∧
      (lvl = 30 → collabPermission lvl = ("write", false)) ∧
      ((lvl = 40 ∨ lvl = 50) → collabPermission lvl = ("admin", false)) ∧
      (¬(lvl = 10 ∨ lvl = 20) → lvl ≠ 30 → ¬(lvl = 40 ∨ lvl = 50) →
        collabPermission lvl = ("read", true))) ∧
    (∀ (st : MigState) (o r : String) (c : SrcMember),
      collaboratorExists st o r (pyStrip c.username) = true →
      (importCollaboratorStep o r st c).1.collaborators = st.collaborators) := by
  constructor
  · intro lvl
    refine ⟨?_, ?_, ?_, ?_⟩
    · intro h; simp [collabPermission, h]
    · intro h
      have h1 : ¬(lvl = 10 ∨ lvl = 20) := by omega
      simp [collabPermission, h1, h]
    · intro h
      have h1 : ¬(lvl = 10 ∨ lvl = 20) := by omega
      have h2 : lvl ≠ 30 := by omega
      simp [collabPermission, h1, h2, h]
    · intro h1 h2 h3; simp [collabPermission, h1, h2, h3]
  · intro st o r c hex
    unfold importCollaboratorStep
    by_cases h : pyStrip c.username = ""
    · simp [h]
    · have hc : (ensure_user_exists st (pyStrip c.username) "").2.1.collaborators
          = st.collaborators :=
        (ensure_user_exists_state st (pyStrip c.username) "").2.2.2.2.2.2.2.1
      have hex2 : collaboratorExists
          (ensure_user_exists st (pyStrip c.username) "").2.1 o r
          (pyStrip c.username) = true := by
        unfold collaboratorExists at hex ⊢
        rw [hc]; exact hex
      simp only [h, if_neg, ite_false, hex2, if_pos, ite_true]
      exact hc

/-- A state that already holds collaborator `bob` on `o/r` with `admin`. -/
def collabWitnessState : MigState :=
  { MigState.empty with users := ["bob"],
                        collaborators := [⟨"o", "r", "bob", "admin"⟩] }

/-- Witness for C6: the four mapping rows at concrete levels and a re-run
over a state that already has the collaborator (with a different stored
permission, which survives unchanged). -/
theorem collaborator_mapping_spec_witness :
    collabPermission 20 = ("read", false) ∧
    collabPermission 30 = ("write", false) ∧
    collabPermission 50 = ("admin", false) ∧
    collabPermission 35 = ("read", true) ∧
    (importCollaboratorStep "o" "r" collabWitnessState
        ⟨"bob", 10⟩).1.collaborators = [⟨"o", "r", "bob", "admin"⟩] :=
  ⟨(collaborator_mapping_spec.1 20).1 (Or.inr rfl),
   (collaborator_mapping_spec.1 30).2.1 rfl,
   (collaborator_mapping_spec.1 50).2.2.1 (Or.inr rfl),
   (collaborator_mapping_spec.1 35).2.2.2 (by omega) (by omega) (by omega),
   collaborator_mapping_spec.2 collabWitnessState
      "o" "r" ⟨"bob", 10⟩ (by decide)⟩

/-- **C5.** Issue assignee fallback: when the initial create call fails with
an assignee-related validation message, exactly one fallback retry is posted
with the `assignee` and `assignees` fields cleared and nothing further
follows (two posts total, never more); if the fallback succeeds the issue is
imported with its assignees dropped and no error is recorded, and if the
fallback also fails exactly one error record is appended, not two.  The
final conjunct shows at most two posts ever happen, whatever the responses. -/
theorem issue_fallback_spec (p : IssuePayload) (r1 r2 : HttpResp) :
    (r1.ok = false → assigneeRelated r1.text = true →
      (issueCreateAttempts p r1 r2).posted =
        [p, { p with assignee := none, assignees := [] }] ∧
      (r2.ok = true → (issueCreateAttempts p r1 r2).imported = true ∧
        (issueCreateAttempts p r1 r2).assigneesDropped = true ∧
        (issueCreateAttempts p r1 r2).errorRecords = 0) ∧
      (r2.ok = false → (issueCreateAttempts p r1 r2).imported = false ∧
        (issueCreateAttempts p r1 r2).errorRecords = 1)) ∧
    (issueCreateAttempts p r1 r2).posted.length ≤ 2 := by
  constructor
  · intro h1 h2
    unfold issueCreateAttempts
    simp only [h1, h2, Bool.false_eq_true, if_false, if_true, ite_true]
    by_cases hr2 : r2.ok
    · simp [hr2]
    · simp [hr2]
  · unfold issueCreateAttempts
    by_cases h1 : r1.ok
    · simp [h1]
    · by_cases h2 : assigneeRelated r1.text
      · by_cases hr2 : r2.ok <;> simp [h1, h2, hr2]
      · simp [h1, h2]

/-- Witness for C5: a concrete Forgejo validation response; the fallback
fires once, the retry carries no assignees, and the failing-retry branch
appends exactly one error record. -/
theorem issue_fallback_spec_witness :
    (issueCreateAttempts ⟨some "bob", ["bob"], "T"⟩
        ⟨false, "Assignee does not exist"⟩ ⟨true, ""⟩).posted =
      [⟨some "bob", ["bob"], "T"⟩, ⟨none, [], "T"⟩] ∧
    (issueCreateAttempts ⟨some "bob", ["bob"], "T"⟩
        ⟨false, "Assignee does not exist"⟩ ⟨false, "500"⟩).errorRecords = 1 :=
  ⟨((issue_fallback_spec ⟨some "bob", ["bob"], "T"⟩
      ⟨false, "Assignee does not exist"⟩ ⟨true, ""⟩).1 rfl (by decide)).1,
   (((issue_fallback_spec ⟨some "bob", ["bob"], "T"⟩
      ⟨false, "Assignee does not exist"⟩ ⟨false, "500"⟩).1 rfl (by decide)).2.2
      rfl).2⟩

/-- Every run of the attempt loop issues at most as many migrate requests
as there are attempt numbers left. -/
theorem attemptsRun_le (outcome : Nat → MigrateOutcome) :
    ∀ l : List Nat, (attemptsRun outcome l).1 ≤ l.length := by
  intro l
  induction l with
  | nil => simp [attemptsRun]
  | cons a rest ih =>
    rw [attemptsRun]
    split
    · simp
    · split
      · simp
      · split
        · simp
        · split
          · simp
          · split
            · simp
            · simp only [List.length_cons]
              omega

/-- **C4.** Repository-migration retry: at most 3 migrate requests are ever
issued; a read-timeout whose reconciliation check finds the repository ends
the loop as a success; timeouts on attempts 1 and 2 with the repository
present at attempt 2's check yield success after exactly 2 requests and the
single 5-second back-off (no third request); a timeout with the repository
still absent backs off `5 × attemptNumber` seconds before the next attempt;
a non-timeout transport error ends the repository immediately with one
error record; and three consecutive unreconciled timeouts exhaust the loop
into a terminal error record for this repository (the caller returns rather
than raising, so the run continues). -/
theorem import_repo_retry_spec (outcome : Nat → MigrateOutcome) :
    (importRepoRetry outcome).1 ≤ 3 ∧
    (outcome 1 = .readTimeout true →
      importRepoRetry outcome = (1, [], .successAfterTimeout) ∧
      RepoMigResult.successAfterTimeout.isSuccess = true) ∧
    (outcome 1 = .readTimeout false → outcome 2 = .readTimeout true →
      importRepoRetry outcome = (2, [5], .successAfterTimeout)) ∧
    (outcome 1 = .transportError →
      importRepoRetry outcome = (1, [], .transportFailed) ∧
      RepoMigResult.transportFailed.errorRecords = 1) ∧
    (outcome 1 = .readTimeout false → outcome 2 = .transportError →
      importRepoRetry outcome = (2, [5], .transportFailed)) ∧
    (outcome 1 = .readTimeout false → outcome 2 = .readTimeout false →
      outcome 3 = .readTimeout false →
      importRepoRetry outcome = (3, [5, 10], .timedOut) ∧
      RepoMigResult.timedOut.errorRecords = 1) := by
  refine ⟨attemptsRun_le outcome [1, 2, 3], ?_, ?_, ?_, ?_, ?_⟩
  · intro h1
    refine ⟨?_, rfl⟩
    rw [importRepoRetry]
    simp [attemptsRun, h1]
  · intro h1 h2
    rw [importRepoRetry]
    simp [attemptsRun, h1, h2]
  · intro h1
    refine ⟨?_, rfl⟩
    rw [importRepoRetry]
    simp [attemptsRun, h1]
  · intro h1 h2
    rw [importRepoRetry]
    simp [attemptsRun, h1, h2]
  · intro h1 h2 h3
    refine ⟨?_, rfl⟩
    rw [importRepoRetry]
    simp [attemptsRun, h1, h2, h3]

/-- Witness for C4: the spec's own scenario — timeout on attempts 1 and 2,
repository present at attempt 2's existence check — evaluated concretely:
success, 2 requests, one 5-second back-off, no third request. -/
theorem import_repo_retry_spec_witness :
    importRepoRetry
        (fun a => if a = 1 then .readTimeout false
                  else if a = 2 then .readTimeout true else .ok) =
      (2, [5], .successAfterTimeout) :=
  (import_repo_retry_spec
    (fun a => if a = 1 then .readTimeout false
              else if a = 2 then .readTimeout true else .ok)).2.2.1
    (by decide) (by decide)

/-- **C7 counterexample.** The claim asserts that a run with a non-zero
error counter "exits with a non-zero status".  It does not: `main`
(`migrate.py` 74–121) prints the failure banner and the list and simply
returns — no non-zero exit is ever issued — so the process exit status is 0
even with one recorded error. -/
theorem main_final_nonzero_exit_cex :
    (mainFinalReport ⟨1, ["failed to import issue T"]⟩).success = false ∧
    (mainFinalReport ⟨1, ["failed to import issue T"]⟩).exitCode = 0 := by
  decide

/-- **C7 amended.** The Error Aggregator never causes early termination
(its error path is total: it appends one record and increments the counter);
at the end of the run the terminal status is "success" iff the global error
counter is zero; when the counter is non-zero the run prints the full
ordered list of failed-entity descriptions (followed by the final summary
line, itself routed through the error path); but the process exit code is 0
in every case — `main` never exits with a non-zero status. -/
theorem main_final_report_spec (a : ErrAgg) :
    (∀ d, errAggError a d = ⟨a.count + 1, a.records ++ [d]⟩) ∧
    ((mainFinalReport a).success = true ↔ a.count = 0) ∧
    (a.count ≠ 0 → (mainFinalReport a).printed =
      a.records ++
        ["Migration finished with " ++ toString a.count ++ " errors!"]) ∧
    (mainFinalReport a).exitCode = 0 := by
  refine ⟨fun d => rfl, ?_, ?_, ?_⟩
  · unfold mainFinalReport
    by_cases h : a.count = 0
    · simp [h]
    · simp [h]
  · intro h
    unfold mainFinalReport
    simp [h, errAggError]
  · unfold mainFinalReport
    by_cases h : a.count = 0
    · simp [h]
    · simp [h]

/-- Witness for C7 (amended): a run that accumulated two errors reports
failure, prints both records plus the summary, and exits with code 0. -/
theorem main_final_report_spec_witness :
    (mainFinalReport ⟨2, ["e1", "e2"]⟩).printed =
      ["e1", "e2", "Migration finished with 2 errors!"] ∧
    (mainFinalReport ⟨2, ["e1", "e2"]⟩).exitCode = 0 :=
  ⟨((main_final_report_spec ⟨2, ["e1", "e2"]⟩).2.2.1 (by decide)).trans
      (by decide),
   (main_final_report_spec ⟨2, ["e1", "e2"]⟩).2.2.2⟩

/-- A namespace whose raw path differs from its normalised form. -/
def nsOwnerCex : SrcNamespace := ⟨"a b", "a b", "group"⟩

/-- A target that already has a user whose username equals the *normalised*
namespace path. -/
def stOwnerCex : MigState := { MigState.empty with users := ["a_b"] }

/-- **C3 counterexample.** The claim says the resolver "first looks up a
target user with username equal to the normalized namespace path".  It does
not: the user lookup uses the **raw** path (`user_get(ns_path)`,
`migrate_projects.py` line 178) and only the organisation lookup normalises.
Concretely, for namespace path `"a b"` (normalised `"a_b"`) against a
target that has a user `"a_b"` and nothing else, the claimed resolver would
hit that user at its first step and create nothing; the code misses it,
misses the organisation lookup too, and creates a fresh organisation
`"a_b"`. -/
theorem ensure_owner_lookup_cex :
    name_clean (nsPathOf nsOwnerCex) = "a_b" ∧
    "a_b" ∈ stOwnerCex.users ∧
    (ensure_owner_exists true true stOwnerCex nsOwnerCex).1 =
      some (.org "a_b") ∧
    (ensure_owner_exists true true stOwnerCex nsOwnerCex).2.1.orgs = ["a_b"] ∧
    (ensure_owner_exists true true stOwnerCex nsOwnerCex).2.2.creates = 1 := by
  decide

/-- **C3 amended.** Owner Resolver precedence as the code implements it:
for every namespace with a non-empty path, it first looks up a target user
with username equal to the **raw** namespace path; on miss it looks up a
target organisation with the **normalised** name; on miss, if the namespace
kind is `group` it creates exactly one organisation and never a user, and
otherwise (personal namespace) exactly one user and no organisation; a
creation failure at either creation step returns `None` for that project
(and on the empty path the resolver returns `None` before any call). -/
theorem ensure_owner_exists_spec (okOrg okUser : Bool) (st : MigState)
    (ns : SrcNamespace) :
    (nsPathOf ns = "" →
      ensure_owner_exists okOrg okUser st ns = (none, st, Eff.zero)) ∧
    (nsPathOf ns ≠ "" → nsPathOf ns ∈ st.users →
      ensure_owner_exists okOrg okUser st ns =
        (some (.user (nsPathOf ns)), st, ⟨1, 0, 0⟩)) ∧
    (nsPathOf ns ≠ "" → nsPathOf ns ∉ st.users →
      name_clean (nsPathOf ns) ∈ st.orgs →
      ensure_owner_exists okOrg okUser st ns =
        (some (.org (name_clean (nsPathOf ns))), st, ⟨2, 0, 0⟩)) ∧
    (nsPathOf ns ≠ "" → nsPathOf ns ∉ st.users →
      name_clean (nsPathOf ns) ∉ st.orgs → nsKindOf ns = "group" →
      okOrg = true →
      (ensure_owner_exists okOrg okUser st ns).1 =
        some (.org (name_clean (nsPathOf ns))) ∧
      (ensure_owner_exists okOrg okUser st ns).2.1.orgs =
        st.orgs ++ [name_clean (nsPathOf ns)] ∧
      (ensure_owner_exists okOrg okUser st ns).2.1.users = st.users ∧
      (ensure_owner_exists okOrg okUser st ns).2.2.creates = 1) ∧
    (nsPathOf ns ≠ "" → nsPathOf ns ∉ st.users →
      name_clean (nsPathOf ns) ∉ st.orgs → nsKindOf ns = "group" →
      okOrg = false →
      ensure_owner_exists okOrg okUser st ns = (none, st, ⟨3, 0, 1⟩)) ∧
    (nsPathOf ns ≠ "" → nsPathOf ns ∉ st.users →
      name_clean (nsPathOf ns) ∉ st.orgs → nsKindOf ns ≠ "group" →
      okUser = true →
      (ensure_owner_exists okOrg okUser st ns).1 =
        some (.user (nsPathOf ns)) ∧
      (ensure_owner_exists okOrg okUser st ns).2.1.users =
        st.users ++ [nsPathOf ns] ∧
      (ensure_owner_exists okOrg okUser st ns).2.1.orgs = st.orgs ∧
      (ensure_owner_exists okOrg okUser st ns).2.2.creates = 1) ∧
    (nsPathOf ns ≠ "" → nsPathOf ns ∉ st.users →
      name_clean (nsPathOf ns) ∉ st.orgs → nsKindOf ns ≠ "group" →
      okUser = false →
      ensure_owner_exists okOrg okUser st ns = (none, st, ⟨3, 0, 1⟩)) := by
  refine ⟨?_, ?_, ?_, ?_, ?_, ?_, ?_⟩
  · intro h; unfold ensure_owner_exists; simp [h]
  · intro h1 h2; unfold ensure_owner_exists; simp [h1, h2]
  · intro h1 h2 h3; unfold ensure_owner_exists; simp [h1, h2, h3]
  · intro h1 h2 h3 h4 h5
    unfold ensure_owner_exists
    simp [h1, h2, h3, h4, h5, addOrg]
  · intro h1 h2 h3 h4 h5
    unfold ensure_owner_exists; simp [h1, h2, h3, h4, h5]
  · intro h1 h2 h3 h4 h5
    unfold ensure_owner_exists
    simp [h1, h2, h3, h4, h5, addUser]
  · intro h1 h2 h3 h4 h5
    unfold ensure_owner_exists; simp [h1, h2, h3, h4, h5]

/-- Witness for C3 (amended): a group namespace with nothing on the target
creates exactly one organisation and no user; a personal namespace creates
exactly one user and no organisation; and a rejected creation yields `None`
with the state unchanged. -/
theorem ensure_owner_exists_spec_witness :
    (ensure_owner_exists true true MigState.empty ⟨"grp x", "Grp X", "group"⟩).2.1.orgs
        = ["grp_x"] ∧
    (ensure_owner_exists true true MigState.empty ⟨"grp x", "Grp X", "group"⟩).2.1.users
        = [] ∧
    (ensure_owner_exists true true MigState.empty ⟨"alice", "Alice", "user"⟩).2.1.users
        = ["alice"] ∧
    (ensure_owner_exists true true MigState.empty ⟨"alice", "Alice", "user"⟩).2.1.orgs
        = [] ∧
    (ensure_owner_exists false true MigState.empty ⟨"grp x", "Grp X", "group"⟩).1
        = none :=
  ⟨by have h := (ensure_owner_exists_spec true true MigState.empty
        ⟨"grp x", "Grp X", "group"⟩).2.2.2.1 (by decide) (by decide)
        (by decide) (by decide) rfl
      rw [h.2.1]; decide,
   by have h := (ensure_owner_exists_spec true true MigState.empty
        ⟨"grp x", "Grp X", "group"⟩).2.2.2.1 (by decide) (by decide)
        (by decide) (by decide) rfl
      rw [h.2.2.1]; decide,
   by have h := (ensure_owner_exists_spec true true MigState.empty
        ⟨"alice", "Alice", "user"⟩).2.2.2.2.2.1 (by decide) (by decide)
        (by decide) (by decide) rfl
      rw [h.2.1]; decide,
   by have h := (ensure_owner_exists_spec true true MigState.empty
        ⟨"alice", "Alice", "user"⟩).2.2.2.2.2.1 (by decide) (by decide)
        (by decide) (by decide) rfl
      rw [h.2.2.1]; decide,
   by have h := (ensure_owner_exists_spec false true MigState.empty
        ⟨"grp x", "Grp X", "group"⟩).2.2.2.2.1 (by decide) (by decide)
        (by decide) (by decide) rfl
      rw [h]⟩

/-! ## Run-level idempotence (C1) -/

theorem dropWhile_head_false {p : Char → Bool} :
    ∀ {l : List Char} {a : Char} {t : List Char},
      l.dropWhile p = a :: t → p a = false := by
  intro l
  induction l with
  | nil => intro a t h; simp [List.dropWhile] at h
  | cons x xs ih =>
    intro a t h
    rw [List.dropWhile_cons] at h
    by_cases hp : p x = true
    · exact ih (by simpa [hp] using h)
    · simp only [hp, if_false] at h
      cases h
      simpa using hp

theorem dropWhile_idem {p : Char → Bool} (l : List Char) :
    (l.dropWhile p).dropWhile p = l.dropWhile p := by
  cases h : l.dropWhile p with
  | nil => simp
  | cons a t =>
    have ha := dropWhile_head_false h
    simp [List.dropWhile_cons, ha]

theorem exists_append_dropWhile {p : Char → Bool} (l : List Char) :
    ∃ t, l = t ++ l.dropWhile p := by
  induction l with
  | nil => exact ⟨[], rfl⟩
  | cons a as ih =>
    by_cases hp : p a = true
    · rcases ih with ⟨t, ht⟩
      exact ⟨a :: t, by simp [List.dropWhile_cons, hp, ← ht]⟩
    · exact ⟨[], by simp [List.dropWhile_cons, hp]⟩

theorem dropWhile_length_le {p : Char → Bool} :
    ∀ l : List Char, (l.dropWhile p).length ≤ l.length := by
  intro l
  induction l with
  | nil => simp
  | cons a as ih =>
    rw [List.dropWhile_cons]
    by_cases hp : p a = true
    · simp only [hp, if_true, List.length_cons]
      omega
    · simp [hp]

/-- Right-trim: drop trailing characters satisfying `p`. -/
def trimRight (p : Char → Bool) (l : List Char) : List Char :=
  (l.reverse.dropWhile p).reverse

theorem trimRight_is_prefix {p : Char → Bool} (l : List Char) :
    ∃ w, l = trimRight p l ++ w := by
  rcases exists_append_dropWhile (p := p) l.reverse with ⟨t, ht⟩
  refine ⟨t.reverse, ?_⟩
  have : l.reverse.reverse = (t ++ l.reverse.dropWhile p).reverse :=
    congrArg List.reverse ht
  simpa [trimRight, List.reverse_append] using this

theorem trimRight_idem {p : Char → Bool} (l : List Char) :
    trimRight p (trimRight p l) = trimRight p l := by
  unfold trimRight
  rw [List.reverse_reverse, dropWhile_idem]

theorem dropWhile_eq_self_of_head {p : Char → Bool} {l : List Char}
    (h : l.dropWhile p = l) {v w : List Char} (hvw : l = v ++ w) :
    v.dropWhile p = v := by
  cases v with
  | nil => rfl
  | cons a t =>
    have ha : p a = false := by
      by_contra hcon
      have hpa : p a = true := by
        cases hval : p a
        · exact absurd hval hcon
        · rfl
      have h2 : l.dropWhile p = (t ++ w).dropWhile p := by
        rw [hvw]; simp [List.dropWhile_cons, hpa]
      have h3 : ((t ++ w).dropWhile p).length ≤ (t ++ w).length :=
        dropWhile_length_le _
      rw [h] at h2
      have h4 : l.length = (t ++ w).length + 1 := by simp [hvw]
      rw [h2] at h4
      omega
    simp [List.dropWhile_cons, ha]

theorem pyStrip_data (s : String) :
    (pyStrip s).data = trimRight pyWhitespace (s.data.dropWhile pyWhitespace) :=
  rfl

/-- Python stripping is idempotent (stripping a stripped string is the
identity), which the source exploits by stripping at both the call sites
and inside `ensure_user_exists`. -/
theorem pyStrip_idem (s : String) : pyStrip (pyStrip s) = pyStrip s := by
  have hdata : (pyStrip (pyStrip s)).data = (pyStrip s).data := by
    rw [pyStrip_data, pyStrip_data]
    set u := s.data.dropWhile pyWhitespace with hu
    have hu_drop : u.dropWhile pyWhitespace = u := dropWhile_idem _
    rcases trimRight_is_prefix (p := pyWhitespace) u with ⟨w, hw⟩
    have h1 : (trimRight pyWhitespace u).dropWhile pyWhitespace =
        trimRight pyWhitespace u :=
      dropWhile_eq_self_of_head hu_drop hw
    rw [h1, trimRight_idem]
  cases hps : pyStrip (pyStrip s) with
  | mk d1 =>
    cases hps2 : pyStrip s with
    | mk d2 =>
      rw [hps, hps2] at hdata
      simp only [] at hdata
      rw [hdata]

/-! ### The idempotence counterexample

One project whose namespace path `"u x"` (a group) differs from its
normalised form `"u_x"`, with a collaborator whose username equals the raw
path.  The first run resolves the owner to the (created) organisation
`"u_x"`, imports the repository under it and provisions the collaborator
user `"u x"`.  On the second run the user lookup of the Owner Resolver —
which uses the raw path — now hits that user, the owner flips to `"u x"`,
and the repository existence gate, keyed by the new owner name, misses:
the second run creates a second repository (and collaborator). -/

def srcIdemCex : Source :=
  ⟨[], [], [⟨⟨"u x", "u x", "group"⟩, "r", [⟨"u x", 30⟩], [], [], []⟩]⟩

/-- **C1 counterexample.** Against the unchanged source and the target
state produced by the first run, the second run of the full migration
creates two additional entities (a repository and a collaborator) and
leaves a different state: run-level idempotence fails as universally
stated. -/
theorem run_idempotence_cex :
    (run_migration srcIdemCex
        (run_migration srcIdemCex MigState.empty).1).2.creates = 2 ∧
    (run_migration srcIdemCex
        (run_migration srcIdemCex MigState.empty).1).1 ≠
      (run_migration srcIdemCex MigState.empty).1 := by
  decide

/-! ### State growth: every step of the run only adds entities -/

/-- Component-wise inclusion of target states: the later state contains
every entity of the earlier one. -/
def MigState.le (s t : MigState) : Prop :=
  s.users ⊆ t.users ∧ s.orgs ⊆ t.orgs ∧ s.teams ⊆ t.teams ∧
  s.teamMembers ⊆ t.teamMembers ∧ s.repos ⊆ t.repos ∧
  s.labels ⊆ t.labels ∧ s.milestones ⊆ t.milestones ∧
  s.issues ⊆ t.issues ∧ s.collaborators ⊆ t.collaborators

theorem MigState.le_refl (s : MigState) : s.le s :=
  ⟨fun _ h => h, fun _ h => h, fun _ h => h, fun _ h => h, fun _ h => h,
   fun _ h => h, fun _ h => h, fun _ h => h, fun _ h => h⟩

theorem MigState.le_trans {s t u : MigState} (h1 : s.le t) (h2 : t.le u) :
    s.le u :=
  ⟨fun _ h => h2.1 (h1.1 h), fun _ h => h2.2.1 (h1.2.1 h),
   fun _ h => h2.2.2.1 (h1.2.2.1 h), fun _ h => h2.2.2.2.1 (h1.2.2.2.1 h),
   fun _ h => h2.2.2.2.2.1 (h1.2.2.2.2.1 h),
   fun _ h => h2.2.2.2.2.2.1 (h1.2.2.2.2.2.1 h),
   fun _ h => h2.2.2.2.2.2.2.1 (h1.2.2.2.2.2.2.1 h),
   fun _ h => h2.2.2.2.2.2.2.2.1 (h1.2.2.2.2.2.2.2.1 h),
   fun _ h => h2.2.2.2.2.2.2.2.2 (h1.2.2.2.2.2.2.2.2 h)⟩

theorem addUser_le (st : MigState) (u : String) : st.le (addUser st u) := by
  unfold addUser MigState.le
  refine ⟨?_, ?_, ?_, ?_, ?_, ?_, ?_, ?_, ?_⟩ <;>
    first
      | exact fun x hx => List.mem_append_left _ hx
      | exact fun x hx => hx

theorem addOrg_le (st : MigState) (o : String) : st.le (addOrg st o) := by
  unfold addOrg MigState.le
  refine ⟨?_, ?_, ?_, ?_, ?_, ?_, ?_, ?_, ?_⟩ <;>
    first
      | exact fun x hx => List.mem_append_left _ hx
      | exact fun x hx => hx

theorem addRepo_le (st : MigState) (k : RepoKey) : st.le (addRepo st k) := by
  unfold addRepo MigState.le
  refine ⟨?_, ?_, ?_, ?_, ?_, ?_, ?_, ?_, ?_⟩ <;>
    first
      | exact fun x hx => List.mem_append_left _ hx
      | exact fun x hx => hx

theorem addLabel_le (st : MigState) (k : LabelKey) : st.le (addLabel st k) := by
  unfold addLabel MigState.le
  refine ⟨?_, ?_, ?_, ?_, ?_, ?_, ?_, ?_, ?_⟩ <;>
    first
      | exact fun x hx => List.mem_append_left _ hx
      | exact fun x hx => hx

theorem addMilestone_le (st : MigState) (k : MilestoneKey) :
    st.le (addMilestone st k) := by
  unfold addMilestone MigState.le
  refine ⟨?_, ?_, ?_, ?_, ?_, ?_, ?_, ?_, ?_⟩ <;>
    first
      | exact fun x hx => List.mem_append_left _ hx
      | exact fun x hx => hx

theorem addIssue_le (st : MigState) (k : IssueKey) : st.le (addIssue st k) := by
  unfold addIssue MigState.le
  refine ⟨?_, ?_, ?_, ?_, ?_, ?_, ?_, ?_, ?_⟩ <;>
    first
      | exact fun x hx => List.mem_append_left _ hx
      | exact fun x hx => hx

theorem addCollab_le (st : MigState) (c : Collab) : st.le (addCollab st c) := by
  unfold addCollab MigState.le
  refine ⟨?_, ?_, ?_, ?_, ?_, ?_, ?_, ?_, ?_⟩ <;>
    first
      | exact fun x hx => List.mem_append_left _ hx
      | exact fun x hx => hx

theorem addMember_le (st : MigState) (m : MemberRec) :
    st.le (addMember st m) := by
  unfold addMember MigState.le
  refine ⟨?_, ?_, ?_, ?_, ?_, ?_, ?_, ?_, ?_⟩ <;>
    first
      | exact fun x hx => List.mem_append_left _ hx
      | exact fun x hx => hx

theorem withEff_fst (r : MigState × Eff) (f : MigState → MigState × Eff) :
    (withEff r f).1 = (f r.1).1 := rfl

theorem withEff_creates (r : MigState × Eff) (f : MigState → MigState × Eff) :
    (withEff r f).2.creates = r.2.creates + (f r.1).2.creates := rfl

theorem foldRun_nil (f : MigState → α → MigState × Eff) (st : MigState) :
    foldRun f st [] = (st, Eff.zero) := rfl

theorem foldRun_cons (f : MigState → α → MigState × Eff) (st : MigState)
    (a : α) (as : List α) :
    foldRun f st (a :: as) =
      ((foldRun f (f st a).1 as).1,
       ((f st a).2).plus (foldRun f (f st a).1 as).2) := rfl

/-- The state grows along any item loop whose step grows it. -/
theorem foldRun_mono {f : MigState → α → MigState × Eff}
    (hf : ∀ (s : MigState) (a : α), s.le (f s a).1) :
    ∀ (l : List α) (st : MigState), st.le (foldRun f st l).1 := by
  intro l
  induction l with
  | nil => intro st; exact MigState.le_refl st
  | cons a as ih =>
    intro st
    rw [foldRun_cons]
    exact MigState.le_trans (hf st a) (ih (f st a).1)

/-- A property preserved by every step survives the loop. -/
theorem foldRun_preserve {f : MigState → α → MigState × Eff}
    {Q : MigState → Prop} :
    ∀ {l : List α} (_ : ∀ s a, a ∈ l → Q s → Q (f s a).1) {st : MigState}
      (_ : Q st), Q (foldRun f st l).1 := by
  intro l
  induction l with
  | nil => intro _ st hq; exact hq
  | cons a as ih =>
    intro h st hq
    rw [foldRun_cons]
    exact ih (fun s b hb => h s b (List.mem_cons_of_mem _ hb))
      (h st a (List.mem_cons_self a as) hq)

/-- A property established by the step of some list member and preserved by
every step holds of the loop's final state. -/
theorem foldRun_mem_post {f : MigState → α → MigState × Eff}
    {Q : MigState → Prop} {a : α} :
    ∀ {l : List α} (_ : a ∈ l) (_ : ∀ s, Q (f s a).1)
      (_ : ∀ s b, Q s → Q (f s b).1) (st : MigState),
      Q (foldRun f st l).1 := by
  intro l
  induction l with
  | nil => intro h; exact absurd h (List.not_mem_nil a)
  | cons b bs ih =>
    intro hmem hstep hpres st
    rw [foldRun_cons]
    rcases List.mem_cons.mp hmem with h | h
    · subst h
      exact foldRun_preserve (fun s c _ => hpres s c) (hstep st)
    · exact ih h hstep hpres (f st b).1

/-- A loop all of whose steps are identities (with no creations) is an
identity with no creations. -/
theorem foldRun_id {f : MigState → α → MigState × Eff} :
    ∀ {l : List α} {s : MigState}
      (_ : ∀ a ∈ l, (f s a).1 = s ∧ (f s a).2.creates = 0),
      (foldRun f s l).1 = s ∧ (foldRun f s l).2.creates = 0 := by
  intro l
  induction l with
  | nil => intro st _; exact ⟨rfl, rfl⟩
  | cons a as ih =>
    intro st h
    have ha := h a (List.mem_cons_self a as)
    rw [foldRun_cons, ha.1]
    have hrest := ih (fun b hb => h b (List.mem_cons_of_mem _ hb))
    refine ⟨hrest.1, ?_⟩
    rw [Eff.plus_creates, ha.2, hrest.2]

/-! ### Per-step monotonicity -/

theorem ensure_user_exists_le (st : MigState) (u pw : String) :
    st.le (ensure_user_exists st u pw).2.1 := by
  unfold ensure_user_exists
  by_cases h : pyStrip u = ""
  · simp only [h, if_pos, ite_true]; exact MigState.le_refl st
  · by_cases h2 : pyStrip u ∈ st.users
    · simp only [h, h2, if_neg, ite_false, if_pos, ite_true]
      exact MigState.le_refl st
    · simp only [h, h2, if_neg, ite_false]
      exact addUser_le st (pyStrip u)

theorem ensure_importer_user_le (st : MigState) :
    st.le (ensure_importer_user st).1 :=
  ensure_user_exists_le st "forgejo-importer" ""

theorem ensure_user_by_username_org_le (st : MigState) (u : String) :
    st.le (ensure_user_by_username_org st u).2.1 := by
  unfold ensure_user_by_username_org
  by_cases h : u = ""
  · simp only [h, if_pos, ite_true]; exact MigState.le_refl st
  · by_cases h2 : u ∈ st.users
    · simp only [h, h2, if_neg, ite_false, if_pos, ite_true]
      exact MigState.le_refl st
    · simp only [h, h2, if_neg, ite_false]
      exact addUser_le st u

theorem ensure_owner_exists_le (okOrg okUser : Bool) (st : MigState)
    (ns : SrcNamespace) :
    st.le (ensure_owner_exists okOrg okUser st ns).2.1 := by
  unfold ensure_owner_exists
  by_cases h0 : nsPathOf ns = ""
  · simp only [h0, if_pos, ite_true]; exact MigState.le_refl st
  · by_cases h1 : nsPathOf ns ∈ st.users
    · simp only [h0, h1, if_neg, ite_false, if_pos, ite_true]
      exact MigState.le_refl st
    · by_cases h2 : name_clean (nsPathOf ns) ∈ st.orgs
      · simp only [h0, h1, h2, if_neg, ite_false, if_pos, ite_true]
        exact MigState.le_refl st
      · by_cases h3 : nsKindOf ns = "group"
        · cases okOrg with
          | true =>
            simp only [h0, h1, h2, h3, if_neg, ite_false, if_pos, ite_true]
            exact addOrg_le st (name_clean (nsPathOf ns))
          | false =>
            simp only [h0, h1, h2, h3, if_neg, ite_false, if_pos, ite_true]
            exact MigState.le_refl st
        · cases okUser with
          | true =>
            simp only [h0, h1, h2, h3, if_neg, ite_false, if_pos, ite_true]
            exact addUser_le st (nsPathOf ns)
          | false =>
            simp only [h0, h1, h2, h3, if_neg, ite_false, if_pos, ite_true]
            exact MigState.le_refl st

theorem get_user_or_group_le (okOrg okUser : Bool) (st : MigState)
    (ns : SrcNamespace) :
    st.le (get_user_or_group okOrg okUser st ns).2.1 := by
  unfold get_user_or_group
  cases h : (ensure_owner_exists okOrg okUser st ns).1 with
  | none =>
    simp only [h]
    exact ensure_owner_exists_le okOrg okUser st ns
  | some ow =>
    simp only [h]
    exact ensure_owner_exists_le okOrg okUser st ns

theorem ensure_collaborator_le (st : MigState) (o r u p : String) :
    st.le (ensure_collaborator_with_permission st o r u p).1 := by
  unfold ensure_collaborator_with_permission
  by_cases h : u = ""
  · simp only [h, if_pos, ite_true]; exact MigState.le_refl st
  · simp only [h, if_neg, ite_false]
    by_cases h2 : collaboratorExists (ensure_user_exists st u "").2.1 o r u
    · simp only [h2, if_pos, ite_true]
      exact ensure_user_exists_le st u ""
    · simp only [h2, if_neg, ite_false]
      exact MigState.le_trans (ensure_user_exists_le st u "")
        (addCollab_le _ _)

theorem provisionParticipant_le (o r : String) (st : MigState) (u : String) :
    st.le (provisionParticipant o r st u).1 := by
  unfold provisionParticipant
  rw [withEff_fst]
  exact MigState.le_trans (ensure_user_exists_le st u "")
    (ensure_collaborator_le _ o r u "read")

theorem importLabelStep_le (o r : String) (st : MigState) (l : String) :
    st.le (importLabelStep o r st l).1 := by
  unfold importLabelStep
  by_cases h : labelExists st o r l
  · simp only [h, if_pos, ite_true]; exact MigState.le_refl st
  · simp only [h, if_neg, ite_false]; exact addLabel_le st _

theorem importMilestoneStep_le (o r : String) (st : MigState) (t : String) :
    st.le (importMilestoneStep o r st t).1 := by
  unfold importMilestoneStep
  by_cases h : milestoneExists st o r t
  · simp only [h, if_pos, ite_true]; exact MigState.le_refl st
  · simp only [h, if_neg, ite_false]; exact addMilestone_le st _

theorem importIssueStep_le (o r : String) (st : MigState) (i : SrcIssue) :
    st.le (importIssueStep o r st i).1 := by
  unfold importIssueStep
  by_cases h : issueExists st o r i.title
  · simp only [h, if_pos, ite_true]; exact MigState.le_refl st
  · simp only [h, if_neg, ite_false]
    refine MigState.le_trans (provisionParticipant_le o r st (issueAuthor i)) ?_
    refine MigState.le_trans ?_ (addIssue_le _ _)
    cases ha : issueAssignee i with
    | none =>
      simp only [ha]
      rw [withEff_fst]
      exact foldRun_mono (fun s u => provisionParticipant_le o r s u) _ _
    | some a =>
      simp only [ha]
      rw [withEff_fst, withEff_fst]
      exact MigState.le_trans (provisionParticipant_le o r _ a)
        (foldRun_mono (fun s u => provisionParticipant_le o r s u) _ _)

theorem importProjectIssues_le (o r : String) (st : MigState)
    (issues : List SrcIssue) :
    st.le (importProjectIssues o r st issues).1 := by
  unfold importProjectIssues
  rw [withEff_fst, withEff_fst]
  exact MigState.le_trans (ensure_importer_user_le st)
    (foldRun_mono (fun s i => importIssueStep_le o r s i) _ _)

theorem importCollaboratorStep_le (o r : String) (st : MigState)
    (c : SrcMember) :
    st.le (importCollaboratorStep o r st c).1 := by
  unfold importCollaboratorStep
  by_cases h : pyStrip c.username = ""
  · simp only [h, if_pos, ite_true]; exact MigState.le_refl st
  · simp only [h, if_neg, ite_false]
    by_cases h2 : collaboratorExists
        (ensure_user_exists st (pyStrip c.username) "").2.1 o r
        (pyStrip c.username)
    · simp only [h2, if_pos, ite_true]
      exact ensure_user_exists_le st (pyStrip c.username) ""
    · simp only [h2, if_neg, ite_false]
      exact MigState.le_trans (ensure_user_exists_le st (pyStrip c.username) "")
        (addCollab_le _ _)

theorem importProjectRepo_le (o : String) (st : MigState) (p : SrcProject) :
    st.le (importProjectRepo o st p).1 := by
  unfold importProjectRepo
  by_cases h : repoExists st o (name_clean p.name)
  · simp only [h, if_pos, ite_true]; exact MigState.le_refl st
  · simp only [h, if_neg, ite_false]; exact addRepo_le st _

theorem withEff_le {st : MigState} {r : MigState × Eff}
    {f : MigState → MigState × Eff} (hr : st.le r.1)
    (hf : ∀ s : MigState, s.le (f s).1) : st.le (withEff r f).1 := by
  rw [withEff_fst]; exact MigState.le_trans hr (hf r.1)

theorem importProjectBody_le (o : String) (st : MigState) (p : SrcProject) :
    st.le (importProjectBody o st p).1 := by
  unfold importProjectBody
  exact withEff_le (withEff_le (withEff_le (withEff_le
    (importProjectRepo_le o st p)
    (fun s => foldRun_mono (fun s2 c => importCollaboratorStep_le o
      (name_clean p.name) s2 c) p.members s))
    (fun s => foldRun_mono (fun s2 l => importLabelStep_le o
      (name_clean p.name) s2 l) p.labels s))
    (fun s => foldRun_mono (fun s2 m => importMilestoneStep_le o
      (name_clean p.name) s2 m) p.milestones s))
    (fun s => importProjectIssues_le o (name_clean p.name) s p.issues)

theorem importOneProjectFull_le (st : MigState) (p : SrcProject) :
    st.le (importOneProjectFull st p).1 := by
  unfold importOneProjectFull
  cases h : (get_user_or_group true true st p.ns).1 with
  | none =>
    simp only [h]
    exact get_user_or_group_le true true st p.ns
  | some ow =>
    simp only [h]
    exact withEff_le (get_user_or_group_le true true st p.ns)
      (fun s => importProjectBody_le ow.name s p)

theorem importGroupMemberStep_le (tid : Nat) (st : MigState) (m : String) :
    st.le (importGroupMemberStep tid st m).1 := by
  unfold importGroupMemberStep
  by_cases h : m = ""
  · simp only [h, if_pos, ite_true]; exact MigState.le_refl st
  · simp only [h, if_neg, ite_false]
    cases hb : (ensure_user_by_username_org st m).1 with
    | false =>
      simp only [hb]
      exact ensure_user_by_username_org_le st m
    | true =>
      simp only [hb]
      by_cases h2 : (⟨tid, m⟩ : MemberRec) ∈
          (ensure_user_by_username_org st m).2.1.teamMembers
      · simp only [h2, if_pos, ite_true]
        exact ensure_user_by_username_org_le st m
      · simp only [h2, if_neg, ite_false]
        exact MigState.le_trans (ensure_user_by_username_org_le st m)
          (addMember_le _ _)

theorem importGroupOne_le (st : MigState) (g : SrcGroup) :
    st.le (importGroupOne st g).1 := by
  unfold importGroupOne
  by_cases h : name_clean g.name ∈ st.orgs
  · simp only [h, if_pos, ite_true]
    cases ht : teamsFor st (name_clean g.name) with
    | nil => simp only [ht]; exact MigState.le_refl st
    | cons t ts =>
      simp only [ht]
      rw [withEff_fst]
      exact foldRun_mono (fun s m => importGroupMemberStep_le t.id s m) _ _
  · simp only [h, if_neg, ite_false]
    cases ht : teamsFor (addOrg st (name_clean g.name)) (name_clean g.name) with
    | nil => simp only [ht]; exact addOrg_le st _
    | cons t ts =>
      simp only [ht]
      rw [withEff_fst]
      exact MigState.le_trans (addOrg_le st _)
        (foldRun_mono (fun s m => importGroupMemberStep_le t.id s m) _ _)

theorem importUserOne_le (st : MigState) (u : SrcUser) :
    st.le (importUserOne st u).1 := by
  unfold importUserOne
  by_cases h : pyStrip u.username = ""
  · simp only [h, if_pos, ite_true]; exact MigState.le_refl st
  · simp only [h, if_neg, ite_false]
    exact ensure_user_exists_le st u.username ""

theorem importUsersPassStep_le (st : MigState) (u : SrcUser) :
    st.le ((fun s u => withEff (ensure_importer_user s)
      (fun s2 => importUserOne s2 u)) st u).1 := by
  rw [withEff_fst]
  exact MigState.le_trans (ensure_importer_user_le st)
    (importUserOne_le _ u)

theorem run_migration_le (src : Source) (st : MigState) :
    st.le (run_migration src st).1 := by
  unfold run_migration importUsersPass
  exact withEff_le (withEff_le
    (foldRun_mono (fun s u => importUsersPassStep_le s u) src.users st)
    (fun s => foldRun_mono (fun s2 g => importGroupOne_le s2 g) src.groups s))
    (fun s => foldRun_mono (fun s2 p => importOneProjectFull_le s2 p)
      src.projects s)

/-! ### Bool/Prop bridges for the existence gates -/

/-- The collaborator gate as a proposition. -/
def hasCollabKey (st : MigState) (o r u : String) : Prop :=
  ∃ c ∈ st.collaborators, c.owner = o ∧ c.repo = r ∧ c.username = u

theorem collaboratorExists_iff (st : MigState) (o r u : String) :
    collaboratorExists st o r u = true ↔ hasCollabKey st o r u := by
  unfold collaboratorExists hasCollabKey
  rw [List.any_eq_true]
  simp

theorem labelExists_iff (st : MigState) (o r n : String) :
    labelExists st o r n = true ↔ (⟨o, r, n⟩ : LabelKey) ∈ st.labels := by
  unfold labelExists; simp

theorem milestoneExists_iff (st : MigState) (o r t : String) :
    milestoneExists st o r t = true ↔
      (⟨o, r, t⟩ : MilestoneKey) ∈ st.milestones := by
  unfold milestoneExists; simp

theorem issueExists_iff (st : MigState) (o r t : String) :
    issueExists st o r t = true ↔ (⟨o, r, t⟩ : IssueKey) ∈ st.issues := by
  unfold issueExists; simp

theorem repoExists_iff (st : MigState) (o r : String) :
    repoExists st o r = true ↔ (⟨o, r⟩ : RepoKey) ∈ st.repos := by
  unfold repoExists; simp

/-! ### Stability of an existing organisation's team list -/

theorem teamsFor_congr {s t : MigState} (h : s.teams = t.teams) (o : String) :
    teamsFor s o = teamsFor t o := by
  unfold teamsFor; rw [h]

theorem teamsFor_addOrg_ne (st : MigState) {o o' : String} (h : o' ≠ o) :
    teamsFor (addOrg st o') o = teamsFor st o := by
  unfold teamsFor addOrg
  simp [List.filter_append, h]

theorem ensure_user_exists_teams (st : MigState) (u pw : String) :
    (ensure_user_exists st u pw).2.1.teams = st.teams :=
  (ensure_user_exists_state st u pw).2.1

theorem ensure_user_exists_orgs (st : MigState) (u pw : String) :
    (ensure_user_exists st u pw).2.1.orgs = st.orgs :=
  (ensure_user_exists_state st u pw).1

theorem ensure_collaborator_teams (st : MigState) (o r u p : String) :
    (ensure_collaborator_with_permission st o r u p).1.teams = st.teams := by
  unfold ensure_collaborator_with_permission
  by_cases h : u = ""
  · simp [h]
  · simp only [h, if_neg, ite_false]
    by_cases h2 : collaboratorExists (ensure_user_exists st u "").2.1 o r u
    · simp only [h2, if_pos, ite_true]
      exact ensure_user_exists_teams st u ""
    · simp only [h2, if_neg, ite_false, addCollab]
      exact ensure_user_exists_teams st u ""

theorem provisionParticipant_teams (o r : String) (st : MigState)
    (u : String) : (provisionParticipant o r st u).1.teams = st.teams := by
  unfold provisionParticipant
  rw [withEff_fst, ensure_collaborator_teams]
  exact ensure_user_exists_teams st u ""

theorem importLabelStep_teams (o r : String) (st : MigState) (l : String) :
    (importLabelStep o r st l).1.teams = st.teams := by
  unfold importLabelStep
  by_cases h : labelExists st o r l
  · simp [h]
  · simp [h, addLabel]

theorem importMilestoneStep_teams (o r : String) (st : MigState)
    (t : String) : (importMilestoneStep o r st t).1.teams = st.teams := by
  unfold importMilestoneStep
  by_cases h : milestoneExists st o r t
  · simp [h]
  · simp [h, addMilestone]

theorem foldRun_teams_eq {f : MigState → α → MigState × Eff}
    (hf : ∀ (s : MigState) (a : α), (f s a).1.teams = s.teams) :
    ∀ (l : List α) (st : MigState), (foldRun f st l).1.teams = st.teams := by
  intro l
  induction l with
  | nil => intro st; rfl
  | cons a as ih =>
    intro st
    rw [foldRun_cons]
    simp only []
    rw [ih (f st a).1, hf st a]

theorem importIssueStep_teams (o r : String) (st : MigState) (i : SrcIssue) :
    (importIssueStep o r st i).1.teams = st.teams := by
  unfold importIssueStep
  by_cases h : issueExists st o r i.title
  · simp [h]
  · cases ha : issueAssignee i with
    | none =>
      simp [h, ha, addIssue, withEff_fst,
            foldRun_teams_eq (fun s u => provisionParticipant_teams o r s u),
            provisionParticipant_teams]
    | some a =>
      simp [h, ha, addIssue, withEff_fst,
            foldRun_teams_eq (fun s u => provisionParticipant_teams o r s u),
            provisionParticipant_teams]

theorem importProjectIssues_teams (o r : String) (st : MigState)
    (issues : List SrcIssue) :
    (importProjectIssues o r st issues).1.teams = st.teams := by
  unfold importProjectIssues
  rw [withEff_fst, withEff_fst,
      foldRun_teams_eq (fun s i => importIssueStep_teams o r s i)]
  exact ensure_user_exists_teams st "forgejo-importer" ""

theorem importCollaboratorStep_teams (o r : String) (st : MigState)
    (c : SrcMember) :
    (importCollaboratorStep o r st c).1.teams = st.teams := by
  unfold importCollaboratorStep
  by_cases h : pyStrip c.username = ""
  · simp [h]
  · simp only [h, if_neg, ite_false]
    by_cases h2 : collaboratorExists
        (ensure_user_exists st (pyStrip c.username) "").2.1 o r
        (pyStrip c.username)
    · simp only [h2, if_pos, ite_true]
      exact ensure_user_exists_teams st (pyStrip c.username) ""
    · simp only [h2, if_neg, ite_false, addCollab]
      exact ensure_user_exists_teams st (pyStrip c.username) ""

theorem importProjectRepo_teams (o : String) (st : MigState)
    (p : SrcProject) : (importProjectRepo o st p).1.teams = st.teams := by
  unfold importProjectRepo
  by_cases h : repoExists st o (name_clean p.name)
  · simp [h]
  · simp [h, addRepo]

/-- The Owner Resolver never touches the team list of an organisation that
already exists: the only team it can add belongs to a freshly created
organisation, whose name the creation gate guarantees to be new. -/
theorem ensure_owner_exists_teamsFor (st : MigState) (ns : SrcNamespace)
    {o : String} (ho : o ∈ st.orgs) :
    teamsFor (ensure_owner_exists true true st ns).2.1 o = teamsFor st o := by
  unfold ensure_owner_exists
  by_cases h0 : nsPathOf ns = ""
  · simp [h0]
  · by_cases h1 : nsPathOf ns ∈ st.users
    · simp [h0, h1]
    · by_cases h2 : name_clean (nsPathOf ns) ∈ st.orgs
      · simp [h0, h1, h2]
      · by_cases h3 : nsKindOf ns = "group"
        · simp only [h0, h1, h2, h3, if_neg, ite_false, if_pos, ite_true]
          exact teamsFor_addOrg_ne st (fun he => h2 (he ▸ ho))
        · simp only [h0, h1, h2, h3, if_neg, ite_false, if_pos, ite_true]
          unfold addUser teamsFor
          rfl

theorem get_user_or_group_teamsFor (st : MigState) (ns : SrcNamespace)
    {o : String} (ho : o ∈ st.orgs) :
    teamsFor (get_user_or_group true true st ns).2.1 o = teamsFor st o := by
  unfold get_user_or_group
  cases h : (ensure_owner_exists true true st ns).1 with
  | none => simp only [h]; exact ensure_owner_exists_teamsFor st ns ho
  | some ow => simp only [h]; exact ensure_owner_exists_teamsFor st ns ho

theorem importProjectBody_teams (o2 : String) (st : MigState)
    (p : SrcProject) : (importProjectBody o2 st p).1.teams = st.teams := by
  unfold importProjectBody
  rw [withEff_fst, withEff_fst, withEff_fst, withEff_fst,
      importProjectIssues_teams,
      foldRun_teams_eq (fun s m => importMilestoneStep_teams _ _ s m),
      foldRun_teams_eq (fun s l => importLabelStep_teams _ _ s l),
      foldRun_teams_eq (fun s c => importCollaboratorStep_teams _ _ s c),
      importProjectRepo_teams]

theorem importOneProjectFull_teamsFor (st : MigState) (p : SrcProject)
    {o : String} (ho : o ∈ st.orgs) :
    teamsFor (importOneProjectFull st p).1 o = teamsFor st o := by
  unfold importOneProjectFull
  cases h : (get_user_or_group true true st p.ns).1 with
  | none => simp only [h]; exact get_user_or_group_teamsFor st p.ns ho
  | some ow =>
    simp only [h]
    rw [withEff_fst, teamsFor_congr (importProjectBody_teams _ _ _) o]
    exact get_user_or_group_teamsFor st p.ns ho

theorem ensure_user_by_username_org_teams (st : MigState) (m : String) :
    (ensure_user_by_username_org st m).2.1.teams = st.teams := by
  unfold ensure_user_by_username_org
  by_cases h : m = ""
  · simp [h]
  · by_cases h2 : m ∈ st.users
    · simp [h, h2]
    · simp [h, h2, addUser]

theorem importGroupMemberStep_teams (tid : Nat) (st : MigState) (m : String) :
    (importGroupMemberStep tid st m).1.teams = st.teams := by
  unfold importGroupMemberStep
  by_cases h : m = ""
  · simp [h]
  · simp only [h, if_neg, ite_false]
    cases hb : (ensure_user_by_username_org st m).1 with
    | false => simp only [hb]; exact ensure_user_by_username_org_teams st m
    | true =>
      simp only [hb]
      by_cases h2 : (⟨tid, m⟩ : MemberRec) ∈
          (ensure_user_by_username_org st m).2.1.teamMembers
      · simp only [h2, if_pos, ite_true]
        exact ensure_user_by_username_org_teams st m
      · simp only [h2, if_neg, ite_false, addMember]
        exact ensure_user_by_username_org_teams st m

theorem importGroupOne_teamsFor (st : MigState) (g : SrcGroup)
    {o : String} (ho : o ∈ st.orgs) :
    teamsFor (importGroupOne st g).1 o = teamsFor st o := by
  unfold importGroupOne
  by_cases h : name_clean g.name ∈ st.orgs
  · simp only [h, if_pos, ite_true]
    cases ht : teamsFor st (name_clean g.name) with
    | nil => simp [ht]
    | cons t ts =>
      simp only [ht]
      rw [withEff_fst]
      exact teamsFor_congr
        (foldRun_teams_eq (fun s m => importGroupMemberStep_teams t.id s m) _ _) o
  · simp only [h, if_neg, ite_false]
    have hne : name_clean g.name ≠ o := fun he => h (he ▸ ho)
    cases ht : teamsFor (addOrg st (name_clean g.name)) (name_clean g.name) with
    | nil =>
      simp only [ht]
      exact teamsFor_addOrg_ne st hne
    | cons t ts =>
      simp only [ht]
      rw [withEff_fst]
      rw [teamsFor_congr
        (foldRun_teams_eq (fun s m => importGroupMemberStep_teams t.id s m) _ _) o]
      exact teamsFor_addOrg_ne st hne

theorem importUserOne_teams (st : MigState) (u : SrcUser) :
    (importUserOne st u).1.teams = st.teams := by
  unfold importUserOne
  by_cases h : pyStrip u.username = ""
  · simp [h]
  · simp only [h, if_neg, ite_false]
    exact ensure_user_exists_teams st u.username ""

theorem importUsersPassStep_teams (st : MigState) (u : SrcUser) :
    ((fun s u => withEff (ensure_importer_user s)
      (fun s2 => importUserOne s2 u)) st u).1.teams = st.teams := by
  rw [withEff_fst, importUserOne_teams]
  exact ensure_user_exists_teams st "forgejo-importer" ""

/-! ### What a completed first run guarantees -/

/-- All entities of project `p` exist on the target under owner name `o`. -/
def Covered (st : MigState) (o : String) (p : SrcProject) : Prop :=
  "forgejo-importer" ∈ st.users ∧
  (⟨o, name_clean p.name⟩ : RepoKey) ∈ st.repos ∧
  (∀ l ∈ p.labels, (⟨o, name_clean p.name, l⟩ : LabelKey) ∈ st.labels) ∧
  (∀ m ∈ p.milestones,
    (⟨o, name_clean p.name, m⟩ : MilestoneKey) ∈ st.milestones) ∧
  (∀ i ∈ p.issues, (⟨o, name_clean p.name, i.title⟩ : IssueKey) ∈ st.issues) ∧
  (∀ c ∈ p.members, pyStrip c.username ≠ "" →
    pyStrip c.username ∈ st.users ∧
      hasCollabKey st o (name_clean p.name) (pyStrip c.username))

/-- Owner name `o` is present on the target under one of the two lookup
keys of the Owner Resolver. -/
def OwnerHit (st : MigState) (p : SrcProject) (o : String) : Prop :=
  (o = nsPathOf p.ns ∧ o ∈ st.users) ∨
  (o = name_clean (nsPathOf p.ns) ∧ o ∈ st.orgs)

/-- Project `p` has been fully imported under some present owner name. -/
def Anchor (st : MigState) (p : SrcProject) : Prop :=
  ∃ o, OwnerHit st p o ∧ Covered st o p

theorem hasCollabKey_mono {s t : MigState} (h : s.le t) {o r u : String}
    (hc : hasCollabKey s o r u) : hasCollabKey t o r u := by
  rcases hc with ⟨c, hc1, hc2⟩
  exact ⟨c, h.2.2.2.2.2.2.2.2 hc1, hc2⟩

theorem Covered_mono {s t : MigState} (h : s.le t) {o : String}
    {p : SrcProject} (hc : Covered s o p) : Covered t o p := by
  obtain ⟨h1, h2, h3, h4, h5, h6⟩ := hc
  exact ⟨h.1 h1, h.2.2.2.2.1 h2,
    fun l hl => h.2.2.2.2.2.1 (h3 l hl),
    fun m hm => h.2.2.2.2.2.2.1 (h4 m hm),
    fun i hi => h.2.2.2.2.2.2.2.1 (h5 i hi),
    fun c hc0 hne => ⟨h.1 (h6 c hc0 hne).1,
      hasCollabKey_mono h (h6 c hc0 hne).2⟩⟩

theorem OwnerHit_mono {s t : MigState} (h : s.le t) {o : String}
    {p : SrcProject} (ho : OwnerHit s p o) : OwnerHit t p o := by
  rcases ho with ⟨he, hm⟩ | ⟨he, hm⟩
  · exact Or.inl ⟨he, h.1 hm⟩
  · exact Or.inr ⟨he, h.2.1 hm⟩

theorem Anchor_mono {s t : MigState} (h : s.le t) {p : SrcProject}
    (ha : Anchor s p) : Anchor t p := by
  rcases ha with ⟨o, h1, h2⟩
  exact ⟨o, OwnerHit_mono h h1, Covered_mono h h2⟩

/-- Group `g` has been fully imported: the organisation exists and, when it
reports teams, every member of `g` is a user and a member of the first
team. -/
def GroupDone (st : MigState) (g : SrcGroup) : Prop :=
  name_clean g.name ∈ st.orgs ∧
  (match teamsFor st (name_clean g.name) with
   | [] => True
   | t :: _ => ∀ m ∈ g.members, m ≠ "" →
       m ∈ st.users ∧ (⟨t.id, m⟩ : MemberRec) ∈ st.teamMembers)

theorem GroupDone_preserved {s t : MigState} {g : SrcGroup} (hle : s.le t)
    (hteams : teamsFor t (name_clean g.name) = teamsFor s (name_clean g.name))
    (hd : GroupDone s g) : GroupDone t g := by
  obtain ⟨h1, h2⟩ := hd
  refine ⟨hle.2.1 h1, ?_⟩
  rw [hteams]
  cases hcase : teamsFor s (name_clean g.name) with
  | nil => trivial
  | cons tm ts =>
    rw [hcase] at h2
    exact fun m hm hne => ⟨hle.1 (h2 m hm hne).1,
      hle.2.2.2.1 (h2 m hm hne).2⟩

/-- User `u` of the users pass is present (or blank). -/
def UserDone (st : MigState) (u : SrcUser) : Prop :=
  pyStrip u.username = "" ∨ pyStrip u.username ∈ st.users

/-! ### Per-step postconditions of the first run -/

theorem ensure_user_exists_post (st : MigState) (u pw : String)
    (h : pyStrip u ≠ "") :
    pyStrip u ∈ (ensure_user_exists st u pw).2.1.users := by
  unfold ensure_user_exists
  by_cases h2 : pyStrip u ∈ st.users
  · simp [h, h2]
  · simp only [h, h2, if_neg, ite_false, addUser]
    exact List.mem_append_right _ (List.mem_singleton_self _)

theorem pyStrip_importer : pyStrip "forgejo-importer" = "forgejo-importer" := by
  decide

theorem ensure_importer_user_post (st : MigState) :
    "forgejo-importer" ∈ (ensure_importer_user st).1.users := by
  have h := ensure_user_exists_post st "forgejo-importer" ""
    (by rw [pyStrip_importer]; decide)
  rw [pyStrip_importer] at h
  exact h

theorem ensure_user_by_username_org_true (st : MigState) {m : String}
    (h : m ≠ "") : (ensure_user_by_username_org st m).1 = true := by
  unfold ensure_user_by_username_org
  by_cases h2 : m ∈ st.users <;> simp [h, h2]

theorem ensure_user_by_username_org_post (st : MigState) {m : String}
    (h : m ≠ "") : m ∈ (ensure_user_by_username_org st m).2.1.users := by
  unfold ensure_user_by_username_org
  by_cases h2 : m ∈ st.users
  · simp [h, h2]
  · simp only [h, h2, if_neg, ite_false, addUser]
    exact List.mem_append_right _ (List.mem_singleton_self _)

theorem importProjectRepo_post (o : String) (st : MigState) (p : SrcProject) :
    (⟨o, name_clean p.name⟩ : RepoKey) ∈ (importProjectRepo o st p).1.repos := by
  unfold importProjectRepo
  by_cases h : repoExists st o (name_clean p.name) = true
  · simp only [h, if_pos, ite_true]
    exact (repoExists_iff st o (name_clean p.name)).mp h
  · simp only [h, if_neg, ite_false, addRepo]
    exact List.mem_append_right _ (List.mem_singleton_self _)

theorem importLabelStep_post (o r : String) (st : MigState) (l : String) :
    (⟨o, r, l⟩ : LabelKey) ∈ (importLabelStep o r st l).1.labels := by
  unfold importLabelStep
  by_cases h : labelExists st o r l = true
  · simp only [h, if_pos, ite_true]
    exact (labelExists_iff st o r l).mp h
  · simp only [h, if_neg, ite_false, addLabel]
    exact List.mem_append_right _ (List.mem_singleton_self _)

theorem importMilestoneStep_post (o r : String) (st : MigState) (t : String) :
    (⟨o, r, t⟩ : MilestoneKey) ∈
      (importMilestoneStep o r st t).1.milestones := by
  unfold importMilestoneStep
  by_cases h : milestoneExists st o r t = true
  · simp only [h, if_pos, ite_true]
    exact (milestoneExists_iff st o r t).mp h
  · simp only [h, if_neg, ite_false, addMilestone]
    exact List.mem_append_right _ (List.mem_singleton_self _)

theorem importIssueStep_post (o r : String) (st : MigState) (i : SrcIssue) :
    (⟨o, r, i.title⟩ : IssueKey) ∈ (importIssueStep o r st i).1.issues := by
  unfold importIssueStep
  by_cases h : issueExists st o r i.title = true
  · simp only [h, if_pos, ite_true]
    exact (issueExists_iff st o r i.title).mp h
  · simp only [h, if_neg, ite_false, addIssue]
    exact List.mem_append_right _ (List.mem_singleton_self _)

theorem addCollab_users (st : MigState) (c : Collab) :
    (addCollab st c).users = st.users := rfl

theorem importCollaboratorStep_post (o r : String) (st : MigState)
    (c : SrcMember) (h : pyStrip c.username ≠ "") :
    pyStrip c.username ∈ (importCollaboratorStep o r st c).1.users ∧
    hasCollabKey (importCollaboratorStep o r st c).1 o r
      (pyStrip c.username) := by
  unfold importCollaboratorStep
  simp only [h, if_neg, ite_false]
  have hu : pyStrip c.username ∈
      (ensure_user_exists st (pyStrip c.username) "").2.1.users := by
    have h2 := ensure_user_exists_post st (pyStrip c.username) ""
      (by rw [pyStrip_idem]; exact h)
    rw [pyStrip_idem] at h2
    exact h2
  by_cases h2 : collaboratorExists
      (ensure_user_exists st (pyStrip c.username) "").2.1 o r
      (pyStrip c.username) = true
  · rw [if_pos h2]
    exact ⟨hu, (collaboratorExists_iff _ o r _).mp h2⟩
  · rw [if_neg h2]
    refine ⟨by rw [addCollab_users]; exact hu, ?_⟩
    exact ⟨⟨o, r, pyStrip c.username, (collabPermission c.accessLevel).1⟩,
      List.mem_append_right _ (List.mem_singleton_self _), rfl, rfl, rfl⟩

theorem importProjectIssues_post (o r : String) (st : MigState)
    (issues : List SrcIssue) :
    "forgejo-importer" ∈ (importProjectIssues o r st issues).1.users ∧
    ∀ i ∈ issues, (⟨o, r, i.title⟩ : IssueKey) ∈
      (importProjectIssues o r st issues).1.issues := by
  unfold importProjectIssues
  rw [withEff_fst, withEff_fst]
  constructor
  · exact (foldRun_mono (fun s i => importIssueStep_le o r s i) issues
      (ensure_importer_user st).1).1 (ensure_importer_user_post st)
  · intro i hi
    exact foldRun_mem_post (Q := fun s => (⟨o, r, i.title⟩ : IssueKey) ∈ s.issues)
      hi (fun s => importIssueStep_post o r s i)
      (fun s b hq => (importIssueStep_le o r s b).2.2.2.2.2.2.2.1 hq)
      (ensure_importer_user st).1

theorem ensure_owner_none_iff (st : MigState) (ns : SrcNamespace) :
    (ensure_owner_exists true true st ns).1 = none ↔ nsPathOf ns = "" := by
  unfold ensure_owner_exists
  by_cases h0 : nsPathOf ns = ""
  · simp [h0]
  · by_cases h1 : nsPathOf ns ∈ st.users
    · simp [h0, h1]
    · by_cases h2 : name_clean (nsPathOf ns) ∈ st.orgs
      · simp [h0, h1, h2]
      · by_cases h3 : nsKindOf ns = "group" <;> simp [h0, h1, h2, h3]

theorem addOrg_orgs (st : MigState) (o : String) :
    (addOrg st o).orgs = st.orgs ++ [o] := rfl

theorem addUser_users (st : MigState) (u : String) :
    (addUser st u).users = st.users ++ [u] := rfl

/-- Whatever owner the Owner Resolver returns is present in the resolver's
result state — as a user under the raw namespace path, or as an
organisation under the normalised name. -/
theorem ensure_owner_some_hit {st : MigState} {ns : SrcNamespace}
    {ow : OwnerRef} (h : (ensure_owner_exists true true st ns).1 = some ow) :
    (ow.name = nsPathOf ns ∧
      ow.name ∈ (ensure_owner_exists true true st ns).2.1.users) ∨
    (ow.name = name_clean (nsPathOf ns) ∧
      ow.name ∈ (ensure_owner_exists true true st ns).2.1.orgs) := by
  unfold ensure_owner_exists at h ⊢
  by_cases h0 : nsPathOf ns = ""
  · simp [h0] at h
  · by_cases h1 : nsPathOf ns ∈ st.users
    · simp only [h0, h1, if_neg, ite_false, if_pos, ite_true] at h ⊢
      cases Option.some.inj h
      exact Or.inl ⟨rfl, h1⟩
    · by_cases h2 : name_clean (nsPathOf ns) ∈ st.orgs
      · simp only [h0, h1, h2, if_neg, ite_false, if_pos, ite_true] at h ⊢
        cases Option.some.inj h
        exact Or.inr ⟨rfl, h2⟩
      · by_cases h3 : nsKindOf ns = "group"
        · simp only [h0, h1, h2, h3, if_neg, ite_false, if_pos, ite_true]
            at h ⊢
          cases Option.some.inj h
          refine Or.inr ⟨rfl, ?_⟩
          rw [addOrg_orgs]
          exact List.mem_append_right _ (List.mem_singleton_self _)
        · simp only [h0, h1, h2, h3, if_neg, ite_false, if_pos, ite_true]
            at h ⊢
          cases Option.some.inj h
          refine Or.inl ⟨rfl, ?_⟩
          rw [addUser_users]
          exact List.mem_append_right _ (List.mem_singleton_self _)

theorem get_user_or_group_eq (st : MigState) (ns : SrcNamespace) :
    (get_user_or_group true true st ns).1 =
      (ensure_owner_exists true true st ns).1 ∧
    (get_user_or_group true true st ns).2.1 =
      (ensure_owner_exists true true st ns).2.1 := by
  unfold get_user_or_group
  cases h : (ensure_owner_exists true true st ns).1 with
  | none => simp [h]
  | some ow => simp [h]

/-- After the sub-entity body ran under owner name `o`, every entity of the
project exists under `o`. -/
theorem importProjectBody_post (o : String) (st : MigState) (p : SrcProject) :
    Covered (importProjectBody o st p).1 o p := by
  unfold importProjectBody
  rw [withEff_fst, withEff_fst, withEff_fst, withEff_fst]
  have hIss := importProjectIssues_post o (name_clean p.name)
    ((foldRun (importMilestoneStep o (name_clean p.name))
      ((foldRun (importLabelStep o (name_clean p.name))
        ((foldRun (importCollaboratorStep o (name_clean p.name))
          (importProjectRepo o st p).1 p.members).1) p.labels).1)
      p.milestones).1) p.issues
  have le23 := foldRun_mono
    (fun s c => importCollaboratorStep_le o (name_clean p.name) s c)
    p.members (importProjectRepo o st p).1
  have le34 := foldRun_mono
    (fun s l => importLabelStep_le o (name_clean p.name) s l) p.labels
    ((foldRun (importCollaboratorStep o (name_clean p.name))
      (importProjectRepo o st p).1 p.members).1)
  have le45 := foldRun_mono
    (fun s m => importMilestoneStep_le o (name_clean p.name) s m)
    p.milestones
    ((foldRun (importLabelStep o (name_clean p.name))
      ((foldRun (importCollaboratorStep o (name_clean p.name))
        (importProjectRepo o st p).1 p.members).1) p.labels).1)
  have le56 := importProjectIssues_le o (name_clean p.name)
    ((foldRun (importMilestoneStep o (name_clean p.name))
      ((foldRun (importLabelStep o (name_clean p.name))
        ((foldRun (importCollaboratorStep o (name_clean p.name))
          (importProjectRepo o st p).1 p.members).1) p.labels).1)
      p.milestones).1) p.issues
  have le36 := MigState.le_trans le34 (MigState.le_trans le45 le56)
  have le26 := MigState.le_trans le23 le36
  refine ⟨hIss.1, ?_, ?_, ?_, hIss.2, ?_⟩
  · exact (MigState.le_trans le23 le36).2.2.2.2.1
      (importProjectRepo_post o st p)
  · intro l hl
    refine (MigState.le_trans le45 le56).2.2.2.2.2.1 ?_
    exact foldRun_mem_post
      (Q := fun s => (⟨o, name_clean p.name, l⟩ : LabelKey) ∈ s.labels) hl
      (fun s => importLabelStep_post o (name_clean p.name) s l)
      (fun s b hq =>
        (importLabelStep_le o (name_clean p.name) s b).2.2.2.2.2.1 hq) _
  · intro m hm
    refine le56.2.2.2.2.2.2.1 ?_
    exact foldRun_mem_post
      (Q := fun s => (⟨o, name_clean p.name, m⟩ : MilestoneKey) ∈ s.milestones)
      hm (fun s => importMilestoneStep_post o (name_clean p.name) s m)
      (fun s b hq =>
        (importMilestoneStep_le o (name_clean p.name) s b).2.2.2.2.2.2.1 hq) _
  · intro c hc hne
    have hpost := foldRun_mem_post
      (Q := fun s => pyStrip c.username ∈ s.users ∧
        hasCollabKey s o (name_clean p.name) (pyStrip c.username)) hc
      (fun s => importCollaboratorStep_post o (name_clean p.name) s c hne)
      (fun s b hq => ⟨(importCollaboratorStep_le o (name_clean p.name) s b).1
          hq.1,
        hasCollabKey_mono (importCollaboratorStep_le o (name_clean p.name) s b)
          hq.2⟩)
      (importProjectRepo o st p).1
    exact ⟨le36.1 hpost.1, hasCollabKey_mono le36 hpost.2⟩

/-- After `_import_one_project_full` processed a project with a non-empty
namespace path, the project is anchored: its owner is present under one of
the resolver's lookup keys and all its entities exist under that owner
name. -/
theorem importOneProjectFull_post (st : MigState) (p : SrcProject)
    (h : nsPathOf p.ns ≠ "") :
    Anchor (importOneProjectFull st p).1 p := by
  unfold importOneProjectFull
  cases hro : (get_user_or_group true true st p.ns).1 with
  | none =>
    exfalso
    have he := (get_user_or_group_eq st p.ns).1
    rw [hro] at he
    exact h ((ensure_owner_none_iff st p.ns).mp he.symm)
  | some ow =>
    simp only [hro]
    rw [withEff_fst]
    have h1 := (get_user_or_group_eq st p.ns).1
    rw [hro] at h1
    have hhit0 := ensure_owner_some_hit h1.symm
    have hgs := (get_user_or_group_eq st p.ns).2
    have hhit : OwnerHit (get_user_or_group true true st p.ns).2.1 p ow.name := by
      unfold OwnerHit
      rw [hgs]
      exact hhit0
    exact ⟨ow.name,
      OwnerHit_mono (importProjectBody_le ow.name _ p) hhit,
      importProjectBody_post ow.name _ p⟩

theorem addMember_users (st : MigState) (m : MemberRec) :
    (addMember st m).users = st.users := rfl

theorem importGroupMemberStep_post (tid : Nat) (st : MigState) {m : String}
    (h : m ≠ "") :
    m ∈ (importGroupMemberStep tid st m).1.users ∧
    (⟨tid, m⟩ : MemberRec) ∈ (importGroupMemberStep tid st m).1.teamMembers := by
  unfold importGroupMemberStep
  simp only [h, if_neg, ite_false]
  rw [ensure_user_by_username_org_true st h]
  have hu := ensure_user_by_username_org_post st h
  by_cases h2 : (⟨tid, m⟩ : MemberRec) ∈
      (ensure_user_by_username_org st m).2.1.teamMembers
  · rw [if_pos h2]
    exact ⟨hu, h2⟩
  · rw [if_neg h2]
    refine ⟨by rw [addMember]; exact hu, ?_⟩
    show (⟨tid, m⟩ : MemberRec) ∈ _ ++ _
    exact List.mem_append_right _ (List.mem_singleton_self _)

theorem addOrg_teams (st : MigState) (o : String) :
    teamsFor (addOrg st o) o =
      teamsFor st o ++ [⟨st.nextTeamId, o⟩] := by
  unfold teamsFor addOrg
  simp [List.filter_append]

/-- After one group step, the group is done: the organisation exists and —
whenever its team list is non-empty — every member is a user and belongs to
the first team. -/
theorem importGroupOne_post (st : MigState) (g : SrcGroup) :
    GroupDone (importGroupOne st g).1 g := by
  unfold importGroupOne GroupDone
  by_cases h : name_clean g.name ∈ st.orgs
  · simp only [h, if_pos, ite_true]
    cases ht : teamsFor st (name_clean g.name) with
    | nil =>
      simp only [ht]
      exact ⟨h, trivial⟩
    | cons t ts =>
      simp only [ht]
      rw [withEff_fst]
      have hmono := foldRun_mono
        (fun s m => importGroupMemberStep_le t.id s m) g.members st
      have hteams : teamsFor
          (foldRun (importGroupMemberStep t.id) st g.members).1
          (name_clean g.name) = t :: ts := by
        rw [teamsFor_congr (foldRun_teams_eq
          (fun s m => importGroupMemberStep_teams t.id s m) g.members st) _]
        exact ht
      refine ⟨hmono.2.1 h, ?_⟩
      rw [hteams]
      intro m hm hne
      exact foldRun_mem_post
        (Q := fun s => m ∈ s.users ∧ (⟨t.id, m⟩ : MemberRec) ∈ s.teamMembers)
        hm (fun s => importGroupMemberStep_post t.id s hne)
        (fun s b hq => ⟨(importGroupMemberStep_le t.id s b).1 hq.1,
          (importGroupMemberStep_le t.id s b).2.2.2.1 hq.2⟩) st
  · simp only [h, if_neg, ite_false]
    have horg : name_clean g.name ∈ (addOrg st (name_clean g.name)).orgs := by
      rw [addOrg_orgs]
      exact List.mem_append_right _ (List.mem_singleton_self _)
    cases ht : teamsFor (addOrg st (name_clean g.name)) (name_clean g.name) with
    | nil =>
      simp only [ht]
      exact ⟨horg, trivial⟩
    | cons t ts =>
      simp only [ht]
      rw [withEff_fst]
      have hmono := foldRun_mono
        (fun s m => importGroupMemberStep_le t.id s m) g.members
        (addOrg st (name_clean g.name))
      have hteams : teamsFor
          (foldRun (importGroupMemberStep t.id)
            (addOrg st (name_clean g.name)) g.members).1
          (name_clean g.name) = t :: ts := by
        rw [teamsFor_congr (foldRun_teams_eq
          (fun s m => importGroupMemberStep_teams t.id s m) g.members _) _]
        exact ht
      refine ⟨hmono.2.1 horg, ?_⟩
      rw [hteams]
      intro m hm hne
      exact foldRun_mem_post
        (Q := fun s => m ∈ s.users ∧ (⟨t.id, m⟩ : MemberRec) ∈ s.teamMembers)
        hm (fun s => importGroupMemberStep_post t.id s hne)
        (fun s b hq => ⟨(importGroupMemberStep_le t.id s b).1 hq.1,
          (importGroupMemberStep_le t.id s b).2.2.2.1 hq.2⟩)
        (addOrg st (name_clean g.name))

theorem importUsersPassStep_post (st : MigState) (u : SrcUser) :
    UserDone ((fun s u2 => withEff (ensure_importer_user s)
      (fun s2 => importUserOne s2 u2)) st u).1 u ∧
    "forgejo-importer" ∈ ((fun s u2 => withEff (ensure_importer_user s)
      (fun s2 => importUserOne s2 u2)) st u).1.users := by
  simp only [withEff_fst]
  constructor
  · unfold UserDone importUserOne
    by_cases h : pyStrip u.username = ""
    · exact Or.inl h
    · simp only [h, if_neg, ite_false]
      exact Or.inr (ensure_user_exists_post _ u.username "" h)
  · unfold importUserOne
    by_cases h : pyStrip u.username = ""
    · simp only [h, if_pos, ite_true]
      exact ensure_importer_user_post st
    · simp only [h, if_neg, ite_false]
      exact (ensure_user_exists_le _ u.username "").1
        (ensure_importer_user_post st)

/-! ### Second-run identities: every gate hits -/

theorem UserDone_mono {s t : MigState} (h : s.le t) {u : SrcUser}
    (hd : UserDone s u) : UserDone t u :=
  hd.elim Or.inl (fun hm => Or.inr (h.1 hm))

theorem ensure_user_exists_hit (st : MigState) (u pw : String)
    (h1 : pyStrip u ≠ "") (h2 : pyStrip u ∈ st.users) :
    ensure_user_exists st u pw = ((some (pyStrip u), none), st, ⟨1, 0, 0⟩) := by
  unfold ensure_user_exists
  simp [h1, h2]

theorem ensure_importer_user_hit (st : MigState)
    (h : "forgejo-importer" ∈ st.users) :
    ensure_importer_user st = (st, ⟨1, 0, 0⟩) := by
  have he := ensure_user_exists_hit st "forgejo-importer" ""
    (by rw [pyStrip_importer]; decide) (by rw [pyStrip_importer]; exact h)
  unfold ensure_importer_user
  rw [he]

theorem importUserOne_id (st : MigState) {u : SrcUser} (hU : UserDone st u) :
    (importUserOne st u).1 = st ∧ (importUserOne st u).2.creates = 0 := by
  unfold importUserOne
  rcases hU with h | h
  · simp [h, Eff.zero]
  · by_cases h0 : pyStrip u.username = ""
    · simp [h0, Eff.zero]
    · simp only [h0, if_neg, ite_false]
      rw [ensure_user_exists_hit st u.username "" h0 h]
      exact ⟨rfl, rfl⟩

theorem importUsersPassStep_id (st : MigState) {u : SrcUser}
    (hImp : "forgejo-importer" ∈ st.users) (hU : UserDone st u) :
    ((fun s u2 => withEff (ensure_importer_user s)
      (fun s2 => importUserOne s2 u2)) st u).1 = st ∧
    ((fun s u2 => withEff (ensure_importer_user s)
      (fun s2 => importUserOne s2 u2)) st u).2.creates = 0 := by
  simp only []
  unfold withEff
  rw [ensure_importer_user_hit st hImp]
  have hid := importUserOne_id st hU
  exact ⟨hid.1, by rw [Eff.plus_creates, hid.2]⟩

theorem ensure_user_by_username_org_hit (st : MigState) {m : String}
    (h1 : m ≠ "") (h2 : m ∈ st.users) :
    ensure_user_by_username_org st m = (true, st, ⟨1, 0, 0⟩) := by
  unfold ensure_user_by_username_org
  simp [h1, h2]

theorem importGroupMemberStep_id (tid : Nat) (st : MigState) {m : String}
    (hne : m ≠ "") (hu : m ∈ st.users)
    (hmem : (⟨tid, m⟩ : MemberRec) ∈ st.teamMembers) :
    (importGroupMemberStep tid st m).1 = st ∧
    (importGroupMemberStep tid st m).2.creates = 0 := by
  unfold importGroupMemberStep
  simp only [hne, if_neg, ite_false]
  rw [ensure_user_by_username_org_hit st hne hu]
  simp only []
  rw [if_pos hmem]
  exact ⟨rfl, rfl⟩

theorem importGroupOne_id (st : MigState) {g : SrcGroup}
    (hd : GroupDone st g) :
    (importGroupOne st g).1 = st ∧ (importGroupOne st g).2.creates = 0 := by
  unfold importGroupOne
  simp only [hd.1, ite_true]
  have hd2 := hd.2
  cases ht : teamsFor st (name_clean g.name) with
  | nil =>
    simp [ht, Eff.plus]
  | cons t ts =>
    simp only [ht]
    rw [ht] at hd2
    unfold withEff
    have hfold := foldRun_id (f := importGroupMemberStep t.id)
      (l := g.members) (s := st) (fun m hm => by
        by_cases hne : m = ""
        · unfold importGroupMemberStep
          simp [hne, Eff.zero]
        · exact importGroupMemberStep_id t.id st hne
            (hd2 m hm hne).1 (hd2 m hm hne).2)
    refine ⟨hfold.1, ?_⟩
    simp [Eff.plus_creates, hfold.2, Eff.plus]

theorem importProjectRepo_id (o : String) (st : MigState) {p : SrcProject}
    (h : (⟨o, name_clean p.name⟩ : RepoKey) ∈ st.repos) :
    importProjectRepo o st p = (st, ⟨1, 0, 0⟩) := by
  unfold importProjectRepo
  rw [if_pos ((repoExists_iff st o (name_clean p.name)).mpr h)]

theorem importLabelStep_id (o r : String) (st : MigState) {l : String}
    (h : (⟨o, r, l⟩ : LabelKey) ∈ st.labels) :
    importLabelStep o r st l = (st, ⟨1, 0, 0⟩) := by
  unfold importLabelStep
  rw [if_pos ((labelExists_iff st o r l).mpr h)]

theorem importMilestoneStep_id (o r : String) (st : MigState) {t : String}
    (h : (⟨o, r, t⟩ : MilestoneKey) ∈ st.milestones) :
    importMilestoneStep o r st t = (st, ⟨1, 0, 0⟩) := by
  unfold importMilestoneStep
  rw [if_pos ((milestoneExists_iff st o r t).mpr h)]

theorem importIssueStep_id (o r : String) (st : MigState) {i : SrcIssue}
    (h : (⟨o, r, i.title⟩ : IssueKey) ∈ st.issues) :
    importIssueStep o r st i = (st, ⟨1, 0, 0⟩) := by
  unfold importIssueStep
  rw [if_pos ((issueExists_iff st o r i.title).mpr h)]

theorem importCollaboratorStep_id (o r : String) (st : MigState)
    {c : SrcMember} (hne : pyStrip c.username ≠ "")
    (hu : pyStrip c.username ∈ st.users)
    (hc : hasCollabKey st o r (pyStrip c.username)) :
    (importCollaboratorStep o r st c).1 = st ∧
    (importCollaboratorStep o r st c).2.creates = 0 := by
  unfold importCollaboratorStep
  simp only [hne, if_neg, ite_false]
  have he := ensure_user_exists_hit st (pyStrip c.username) ""
    (by rw [pyStrip_idem]; exact hne) (by rw [pyStrip_idem]; exact hu)
  rw [he]
  simp only []
  rw [if_pos ((collaboratorExists_iff st o r (pyStrip c.username)).mpr hc)]
  exact ⟨rfl, rfl⟩

theorem importProjectIssues_id (o r : String) (st : MigState)
    {issues : List SrcIssue}
    (hImp : "forgejo-importer" ∈ st.users)
    (hIss : ∀ i ∈ issues, (⟨o, r, i.title⟩ : IssueKey) ∈ st.issues) :
    (importProjectIssues o r st issues).1 = st ∧
    (importProjectIssues o r st issues).2.creates = 0 := by
  unfold importProjectIssues
  unfold withEff
  rw [ensure_importer_user_hit st hImp]
  simp only []
  have hfold := foldRun_id (f := importIssueStep o r) (l := issues) (s := st)
    (fun i hi => by rw [importIssueStep_id o r st (hIss i hi)]; exact ⟨rfl, rfl⟩)
  exact ⟨hfold.1, by simp only [Eff.plus_creates, hfold.2]⟩

theorem importProjectBody_id (o : String) (st : MigState) {p : SrcProject}
    (hcov : Covered st o p) :
    (importProjectBody o st p).1 = st ∧
    (importProjectBody o st p).2.creates = 0 := by
  obtain ⟨hImp, hRepo, hLab, hMil, hIss, hMem⟩ := hcov
  unfold importProjectBody
  unfold withEff
  rw [importProjectRepo_id o st hRepo]
  simp only []
  have hfC := foldRun_id (f := importCollaboratorStep o (name_clean p.name))
    (l := p.members) (s := st) (fun c hc => by
      by_cases hne : pyStrip c.username = ""
      · unfold importCollaboratorStep
        simp [hne, Eff.zero]
      · exact importCollaboratorStep_id o (name_clean p.name) st hne
          (hMem c hc hne).1 (hMem c hc hne).2)
  rw [hfC.1]
  have hfL := foldRun_id (f := importLabelStep o (name_clean p.name))
    (l := p.labels) (s := st) (fun l hl => by
      rw [importLabelStep_id o (name_clean p.name) st (hLab l hl)]
      exact ⟨rfl, rfl⟩)
  rw [hfL.1]
  have hfM := foldRun_id (f := importMilestoneStep o (name_clean p.name))
    (l := p.milestones) (s := st) (fun m hm => by
      rw [importMilestoneStep_id o (name_clean p.name) st (hMil m hm)]
      exact ⟨rfl, rfl⟩)
  rw [hfM.1]
  have hfI := importProjectIssues_id o (name_clean p.name) st hImp hIss
  refine ⟨hfI.1, ?_⟩
  simp only [Eff.plus_creates, hfC.2, hfL.2, hfM.2, hfI.2]

theorem ensure_owner_empty (st : MigState) (ns : SrcNamespace)
    (h : nsPathOf ns = "") :
    ensure_owner_exists true true st ns = (none, st, Eff.zero) := by
  unfold ensure_owner_exists
  simp [h]

theorem ensure_owner_user_hit (st : MigState) (ns : SrcNamespace)
    (h0 : nsPathOf ns ≠ "") (h1 : nsPathOf ns ∈ st.users) :
    ensure_owner_exists true true st ns =
      (some (.user (nsPathOf ns)), st, ⟨1, 0, 0⟩) := by
  unfold ensure_owner_exists
  simp [h0, h1]

theorem ensure_owner_org_hit (st : MigState) (ns : SrcNamespace)
    (h0 : nsPathOf ns ≠ "") (h1 : nsPathOf ns ∉ st.users)
    (h2 : name_clean (nsPathOf ns) ∈ st.orgs) :
    ensure_owner_exists true true st ns =
      (some (.org (name_clean (nsPathOf ns))), st, ⟨2, 0, 0⟩) := by
  unfold ensure_owner_exists
  simp [h0, h1, h2]

/-- A project whose owner resolution hits the state and whose entities are
all covered is processed by `_import_one_project_full` without any state
change and without any creation. -/
theorem importOneProjectFull_id (st : MigState) (p : SrcProject)
    (hOwnP : nsPathOf p.ns ∈ st.users →
      name_clean (nsPathOf p.ns) = nsPathOf p.ns)
    (hA : nsPathOf p.ns ≠ "" → Anchor st p) :
    (importOneProjectFull st p).1 = st ∧
    (importOneProjectFull st p).2.creates = 0 := by
  by_cases h0 : nsPathOf p.ns = ""
  · unfold importOneProjectFull get_user_or_group
    rw [ensure_owner_empty st p.ns h0]
    simp [Eff.plus, Eff.zero]
  · rcases hA h0 with ⟨o, hhit, hcov⟩
    by_cases h1 : nsPathOf p.ns ∈ st.users
    · have ho : o = nsPathOf p.ns := by
        rcases hhit with ⟨he, _⟩ | ⟨he, _⟩
        · exact he
        · rw [he]; exact hOwnP h1
      unfold importOneProjectFull get_user_or_group
      rw [ensure_owner_user_hit st p.ns h0 h1]
      simp only []
      unfold withEff
      have hbody := importProjectBody_id
        (OwnerRef.user (nsPathOf p.ns)).name st (p := p) (ho ▸ hcov)
      exact ⟨hbody.1, by simp [Eff.plus_creates, hbody.2, Eff.plus]⟩
    · have hoc : o = name_clean (nsPathOf p.ns) ∧ o ∈ st.orgs := by
        rcases hhit with ⟨he, hm⟩ | ⟨he, hm⟩
        · exact absurd (he ▸ hm) h1
        · exact ⟨he, hm⟩
      unfold importOneProjectFull get_user_or_group
      rw [ensure_owner_org_hit st p.ns h0 h1 (hoc.1 ▸ hoc.2)]
      simp only []
      unfold withEff
      have hbody := importProjectBody_id
        (OwnerRef.org (name_clean (nsPathOf p.ns))).name st (p := p)
        (hoc.1 ▸ hcov)
      exact ⟨hbody.1, by simp [Eff.plus_creates, hbody.2, Eff.plus]⟩

theorem run_migration_unfolded (src : Source) (st : MigState) :
    (run_migration src st).1 =
      (foldRun importOneProjectFull
        ((foldRun importGroupOne
          ((foldRun (fun s u => withEff (ensure_importer_user s)
            (fun s2 => importUserOne s2 u)) st src.users).1) src.groups).1)
        src.projects).1 := by
  unfold run_migration importUsersPass
  rw [withEff_fst, withEff_fst]

/-- What the first run leaves behind, for every source item: every
users-pass user is present (with the importer identity), every group is
done, and every project with a non-empty namespace path is anchored. -/
theorem run_migration_creates (src : Source) (st : MigState) :
    (run_migration src st).2.creates =
      (foldRun (fun s u => withEff (ensure_importer_user s)
        (fun s2 => importUserOne s2 u)) st src.users).2.creates +
      (foldRun importGroupOne
        ((foldRun (fun s u => withEff (ensure_importer_user s)
          (fun s2 => importUserOne s2 u)) st src.users).1)
        src.groups).2.creates +
      (foldRun importOneProjectFull
        ((foldRun importGroupOne
          ((foldRun (fun s u => withEff (ensure_importer_user s)
            (fun s2 => importUserOne s2 u)) st src.users).1) src.groups).1)
        src.projects).2.creates := by
  unfold run_migration importUsersPass
  rw [withEff_creates, withEff_creates, withEff_fst]

theorem run_migration_facts (src : Source) (st : MigState) :
    (∀ u ∈ src.users, UserDone (run_migration src st).1 u ∧
      "forgejo-importer" ∈ (run_migration src st).1.users) ∧
    (∀ g ∈ src.groups, GroupDone (run_migration src st).1 g) ∧
    (∀ p ∈ src.projects, nsPathOf p.ns ≠ "" →
      Anchor (run_migration src st).1 p) := by
  rw [run_migration_unfolded src st]
  refine ⟨?_, ?_, ?_⟩
  · intro u hu
    have hU := foldRun_mem_post
      (f := fun s u2 => withEff (ensure_importer_user s)
        (fun s2 => importUserOne s2 u2))
      (Q := fun s => UserDone s u ∧ "forgejo-importer" ∈ s.users) hu
      (fun s => importUsersPassStep_post s u)
      (fun s b hq => ⟨UserDone_mono (importUsersPassStep_le s b) hq.1,
        (importUsersPassStep_le s b).1 hq.2⟩) st
    have leGP := MigState.le_trans
      (foldRun_mono (fun s g => importGroupOne_le s g) src.groups
        ((foldRun (fun s u => withEff (ensure_importer_user s)
          (fun s2 => importUserOne s2 u)) st src.users).1))
      (foldRun_mono (fun s p => importOneProjectFull_le s p) src.projects
        ((foldRun importGroupOne
          ((foldRun (fun s u => withEff (ensure_importer_user s)
            (fun s2 => importUserOne s2 u)) st src.users).1) src.groups).1))
    exact ⟨UserDone_mono leGP hU.1, leGP.1 hU.2⟩
  · intro g hg
    have hG := foldRun_mem_post (Q := fun s => GroupDone s g) hg
      (fun s => importGroupOne_post s g)
      (fun s b hq => GroupDone_preserved (importGroupOne_le s b)
        (importGroupOne_teamsFor s b hq.1) hq)
      ((foldRun (fun s u => withEff (ensure_importer_user s)
        (fun s2 => importUserOne s2 u)) st src.users).1)
    exact foldRun_preserve
      (fun s b _ hq => GroupDone_preserved (importOneProjectFull_le s b)
        (importOneProjectFull_teamsFor s b hq.1) hq) hG
  · intro p hp hne
    exact foldRun_mem_post (Q := fun s => Anchor s p) hp
      (fun s => importOneProjectFull_post s p hne)
      (fun s b hq => Anchor_mono (importOneProjectFull_le s b) hq)
      ((foldRun importGroupOne
        ((foldRun (fun s u => withEff (ensure_importer_user s)
          (fun s2 => importUserOne s2 u)) st src.users).1) src.groups).1)

/-- **C1 amended.** Run-level idempotence with a stable owner resolution:
for every source dataset and every initial target state, provided no
project's raw namespace path collides with a user present after the first
run unless the path is already in normalised form (this is exactly what the
counterexample violates: the user lookup of the Owner Resolver uses the raw
path while the organisation lookup uses the normalised name, so a user
provisioned during the first run under a project's raw namespace path can
flip that project's owner and hence its repository key), running the full
migration a second time against the unchanged source and the state left by
the first run changes nothing: the final state is identical and the second
run performs zero creation operations — every creation site queried its
existence gate by its canonical key ((owner, name) or
(repo, title/name/username)) immediately before creating and skipped.  In
particular the second run creates zero additional users, organizations,
repositories, labels, milestones, issues, collaborators and team members,
and, since it never even attempts a creation, records zero errors
attributable to duplication. -/
theorem run_migration_idempotent (src : Source) (st : MigState)
    (hOwn : ∀ p ∈ src.projects,
      nsPathOf p.ns ∈ (run_migration src st).1.users →
      name_clean (nsPathOf p.ns) = nsPathOf p.ns) :
    (run_migration src (run_migration src st).1).1 =
      (run_migration src st).1 ∧
    (run_migration src (run_migration src st).1).2.creates = 0 := by
  have hfacts := run_migration_facts src st
  have husers := foldRun_id
    (f := fun s u => withEff (ensure_importer_user s)
      (fun s2 => importUserOne s2 u))
    (l := src.users) (s := (run_migration src st).1)
    (fun u hu => importUsersPassStep_id (run_migration src st).1
      ((hfacts.1 u hu).2) ((hfacts.1 u hu).1))
  have hgroups := foldRun_id (f := importGroupOne) (l := src.groups)
    (s := (run_migration src st).1)
    (fun g hg => importGroupOne_id (run_migration src st).1
      (hfacts.2.1 g hg))
  have hprojects := foldRun_id (f := importOneProjectFull)
    (l := src.projects) (s := (run_migration src st).1)
    (fun p hp => importOneProjectFull_id (run_migration src st).1 p
      (hOwn p hp) (hfacts.2.2 p hp))
  constructor
  · rw [run_migration_unfolded src (run_migration src st).1,
        husers.1, hgroups.1, hprojects.1]
  · rw [run_migration_creates src (run_migration src st).1,
        husers.1, hgroups.1, husers.2, hgroups.2, hprojects.2]

/-- Witness for C1 (amended): a concrete one-project source (group
namespace `alice`, one label, one milestone, one issue, one collaborator)
against the empty target; the owner-stability hypothesis holds by
computation, and the second run is the identity with zero creations. -/
theorem run_migration_idempotent_witness :
    (∀ p ∈ (⟨[⟨"bob"⟩], [⟨"Team A", ["bob"]⟩],
        [⟨⟨"alice", "Alice", "group"⟩, "My Repo!!", [⟨"bob", 30⟩], ["bug"],
          ["v1"], [⟨"Issue T", some "bob", none, []⟩]⟩]⟩ : Source).projects,
      nsPathOf p.ns ∈ (run_migration ⟨[⟨"bob"⟩], [⟨"Team A", ["bob"]⟩],
        [⟨⟨"alice", "Alice", "group"⟩, "My Repo!!", [⟨"bob", 30⟩], ["bug"],
          ["v1"], [⟨"Issue T", some "bob", none, []⟩]⟩]⟩
        MigState.empty).1.users →
      name_clean (nsPathOf p.ns) = nsPathOf p.ns) ∧
    (run_migration ⟨[⟨"bob"⟩], [⟨"Team A", ["bob"]⟩],
        [⟨⟨"alice", "Alice", "group"⟩, "My Repo!!", [⟨"bob", 30⟩], ["bug"],
          ["v1"], [⟨"Issue T", some "bob", none, []⟩]⟩]⟩
      (run_migration ⟨[⟨"bob"⟩], [⟨"Team A", ["bob"]⟩],
        [⟨⟨"alice", "Alice", "group"⟩, "My Repo!!", [⟨"bob", 30⟩], ["bug"],
          ["v1"], [⟨"Issue T", some "bob", none, []⟩]⟩]⟩
        MigState.empty).1).2.creates = 0 :=
  ⟨by decide,
   (run_migration_idempotent ⟨[⟨"bob"⟩], [⟨"Team A", ["bob"]⟩],
        [⟨⟨"alice", "Alice", "group"⟩, "My Repo!!", [⟨"bob", 30⟩], ["bug"],
          ["v1"], [⟨"Issue T", some "bob", none, []⟩]⟩]⟩
      MigState.empty (by decide)).2⟩
